import Mathlib

/-!
Verification development for the map-machine rendering engine.

The Python sources are embedded shallowly: numbers become `ℚ`, Python
lists become `List`, fallible code returns `Except`/`Option`, and the
side effects of the drawing code (cairo / svgwrite calls) become pure
event traces.  Definitions follow the corresponding Python functions;
definitions for repository code that is not part of the provided sources
are marked `Modelled from the spec:` in their doc strings.
-/

namespace MapMachine

/-! ## Basic helpers shared by several modules -/

/-- Python `str.split(sep)` on a single separator character, including its
behaviour on empty strings and consecutive separators
(`"a,,b".split(",") == ["a", "", "b"]`, `"".split(" ") == [""]`). -/
def splitOnCharAux (sep : Char) (cur : List Char) : List Char → List (List Char)
  | [] => [cur.reverse]
  | c :: cs =>
      if c = sep then cur.reverse :: splitOnCharAux sep [] cs
      else splitOnCharAux sep (c :: cur) cs

/-- Python `text.split(sep)` for a one-character separator. -/
def splitOnChar (sep : Char) (cs : List Char) : List (List Char) :=
  splitOnCharAux sep [] cs

/-- Whether `pre` is a prefix of `l` (used for the substring test below). -/
def listStartsWith [DecidableEq α] : List α → List α → Bool
  | [], _ => true
  | _ :: _, [] => false
  | a :: as, b :: bs => a = b && listStartsWith as bs

/-- Python's `needle in haystack` on strings: substring containment
(the empty string is contained in every string). -/
def listIsInfix [DecidableEq α] (needle : List α) : List α → Bool
  | [] => needle.isEmpty
  | b :: bs => listStartsWith needle (b :: bs) || listIsInfix needle bs

/-- Numeric value of a list of decimal digit characters, most significant
first (`foldl (fun a c => 10 * a + digit c) 0`). -/
def digitsVal (cs : List Char) : ℕ :=
  cs.foldl (fun a c => 10 * a + (c.toNat - 48)) 0

/-- Modelled from the spec: the numeric-token format of §6 ("numeric operands
as decimal numbers"), standing in for Python's builtin `float` parser, which is
not part of the provided sources.  Accepts an optional sign followed by
`digits`, `digits.digits`, `digits.` or `.digits`; everything else is a parse
failure (Python raises `ValueError`). -/
def parseFloatUnsigned (cs : List Char) : Option ℚ :=
  let intPart := cs.takeWhile Char.isDigit
  let rest := cs.dropWhile Char.isDigit
  match rest with
  | [] => if intPart.isEmpty then none else some (digitsVal intPart : ℚ)
  | '.' :: fracPart =>
      if fracPart.all Char.isDigit && !(intPart.isEmpty && fracPart.isEmpty) then
        some ((digitsVal intPart : ℚ) + (digitsVal fracPart : ℚ) / (10 ^ fracPart.length : ℚ))
      else none
  | _ => none

/-- Modelled from the spec: Python `float(text)` over the decimal-number
format, giving `none` where Python raises `ValueError`. -/
def parseFloat : List Char → Option ℚ
  | '-' :: cs => (parseFloatUnsigned cs).map Neg.neg
  | '+' :: cs => parseFloatUnsigned cs
  | cs => parseFloatUnsigned cs

/-- `parseFloat` on a `String`. -/
def parseFloatStr (s : String) : Option ℚ :=
  parseFloat s.toList

/-! ## `figure.py`: ring winding (`is_clockwise`, `make_clockwise`,
`make_counter_clockwise`) -/

/-- One OpenStreetMap node; only its projected/geographic coordinate pair is
relevant to the geometry code (`node.coordinates[0]`, `node.coordinates[1]`). -/
structure OSMNode where
  coordinates : ℚ × ℚ
  deriving DecidableEq, Repr

/-- The summand of `is_clockwise` for the edge from `a` to its successor `b`:
`(b.coordinates[0] - a.coordinates[0]) * (b.coordinates[1] + a.coordinates[1])`. -/
def edgeTerm (a b : OSMNode) : ℚ :=
  (b.coordinates.1 - a.coordinates.1) * (b.coordinates.2 + a.coordinates.2)

/-- Sum of `edgeTerm` over consecutive pairs of the list (without the
wrap-around edge). -/
def osumList : List OSMNode → ℚ
  | [] => 0
  | [_] => 0
  | a :: b :: rest => edgeTerm a b + osumList (b :: rest)

/-- The full signed sum computed by the loop of `is_clockwise`: every
consecutive pair contributes `edgeTerm`, and the last node wraps around to the
first (`next_index = 0 if index == len(polygon) - 1 else index + 1`). -/
def signedSum : List OSMNode → ℚ
  | [] => 0
  | a :: rest => osumList (a :: rest) + edgeTerm ((a :: rest).getLastD a) a

/-- `is_clockwise(polygon)`: true iff the signed sum is `>= 0`. -/
def is_clockwise (polygon : List OSMNode) : Bool :=
  decide (0 ≤ signedSum polygon)

/-- `make_clockwise(polygon)`. -/
def make_clockwise (polygon : List OSMNode) : List OSMNode :=
  if is_clockwise polygon then polygon else polygon.reverse

/-- `make_counter_clockwise(polygon)`. -/
def make_counter_clockwise (polygon : List OSMNode) : List OSMNode :=
  if !is_clockwise polygon then polygon else polygon.reverse

theorem edgeTerm_swap (a b : OSMNode) : edgeTerm b a = -edgeTerm a b := by
  simp only [edgeTerm]; ring

theorem edgeTerm_self (a : OSMNode) : edgeTerm a a = 0 := by
  simp only [edgeTerm]; ring

theorem osumList_append_singleton (s : List OSMNode) (x : OSMNode) :
    osumList (s ++ [x]) = osumList s + edgeTerm (s.getLastD x) x := by
  induction s with
  | nil => simp [osumList, edgeTerm_self]
  | cons a t ih =>
      cases t with
      | nil => simp [osumList]
      | cons b u =>
          simp only [List.cons_append, List.append_eq, osumList] at ih ⊢
          rw [ih]
          simp only [List.getLastD_cons]
          ring

theorem getLastD_irrel (l : List OSMNode) (hne : l ≠ []) (d d' : OSMNode) :
    l.getLastD d = l.getLastD d' := by
  cases l with
  | nil => exact absurd rfl hne
  | cons a t => rw [List.getLastD_cons, List.getLastD_cons]

theorem getLastD_reverse (l : List OSMNode) (d : OSMNode) :
    l.reverse.getLastD d = l.headD d := by
  rw [List.getLastD_eq_getLast?, List.getLast?_reverse, List.headD_eq_head?]

theorem headD_reverse (l : List OSMNode) (d : OSMNode) :
    l.reverse.headD d = l.getLastD d := by
  rw [List.headD_eq_head?, List.head?_reverse, List.getLastD_eq_getLast?]

theorem osumList_reverse (l : List OSMNode) :
    osumList l.reverse = -osumList l := by
  induction l with
  | nil => simp [osumList]
  | cons a t ih =>
      cases t with
      | nil => simp [osumList]
      | cons b u =>
          have h := osumList_append_singleton (List.reverse (b :: u)) a
          rw [List.reverse_cons, h, ih]
          have hlast : (List.reverse (b :: u)).getLastD a = b := by
            rw [getLastD_reverse]; rfl
          rw [hlast, edgeTerm_swap]
          simp only [osumList]
          ring

/-- `signedSum` of a nonempty list, phrased with explicit default values so
that heads and last elements of reversed lists can be rewritten. -/
theorem signedSum_eq_of_ne_nil (l : List OSMNode) (hne : l ≠ []) (d : OSMNode) :
    signedSum l = osumList l + edgeTerm (l.getLastD d) (l.headD d) := by
  cases l with
  | nil => exact absurd rfl hne
  | cons a t =>
      simp only [signedSum, List.headD_cons]
      rw [getLastD_irrel (a :: t) (by simp) a d]

theorem signedSum_reverse (l : List OSMNode) :
    signedSum l.reverse = -signedSum l := by
  cases l with
  | nil => simp [signedSum]
  | cons a t =>
      have hne : (a :: t) ≠ [] := by simp
      have hner : (a :: t).reverse ≠ [] := by simp
      rw [signedSum_eq_of_ne_nil _ hner a, signedSum_eq_of_ne_nil _ hne a,
        osumList_reverse, getLastD_reverse, headD_reverse]
      simp only [List.headD_cons]
      rw [edgeTerm_swap]
      ring

theorem is_clockwise_reverse_of_not (l : List OSMNode)
    (h : is_clockwise l = false) : is_clockwise l.reverse = true := by
  simp only [is_clockwise, decide_eq_false_iff_not, not_le] at h
  simp only [is_clockwise, signedSum_reverse, decide_eq_true_eq]
  linarith

/-- Node shorthand used by concrete rings. -/
def nd (x y : ℚ) : OSMNode := ⟨(x, y)⟩

/-- A degenerate (zero-area) two-node ring. -/
def degenerateRing : List OSMNode := [nd 0 0, nd 1 0]

/-- Claim C3 (counterexample): `make_counter_clockwise` is not idempotent.
On the degenerate zero-area ring `[(0,0), (1,0)]` (which `is_clockwise`
accepts as clockwise), a single application reverses the ring, and a second
application reverses it back, so applying it twice differs from applying it
once. -/
theorem c3_make_counter_clockwise_not_idempotent :
    make_counter_clockwise (make_counter_clockwise degenerateRing) ≠
      make_counter_clockwise degenerateRing := by
  have h1 : signedSum degenerateRing = 0 := by
    norm_num [degenerateRing, signedSum, osumList, edgeTerm, nd]
  have h2 : signedSum degenerateRing.reverse = 0 := by
    rw [signedSum_reverse, h1]; ring
  have hc1 : is_clockwise degenerateRing = true := by
    simp [is_clockwise, h1]
  have hc2 : is_clockwise degenerateRing.reverse = true := by
    simp [is_clockwise, h2]
  have e1 : make_counter_clockwise degenerateRing = degenerateRing.reverse := by
    simp [make_counter_clockwise, hc1]
  rw [e1]
  have e2 : make_counter_clockwise degenerateRing.reverse =
      degenerateRing.reverse.reverse := by
    simp [make_counter_clockwise, hc2]
  rw [e2, List.reverse_reverse]
  simp [degenerateRing, nd]

/-- Claim C3 (amended): `is_clockwise` returns true iff the signed-area sum
over consecutive vertices of `(x[next]-x[i])*(y[next]+y[i])` is `≥ 0`
(a degenerate zero-area ring counts as clockwise, not an error);
`is_clockwise (make_clockwise ring)` is always true; `make_clockwise` is
idempotent; on a zero-area ring every application of
`make_counter_clockwise` reverses the ring; and `make_counter_clockwise`
is idempotent at a ring precisely when the ring's signed area is nonzero
or the ring equals its own reversal. -/
theorem c3_winding_normalization :
    (∀ ring : List OSMNode, is_clockwise ring = true ↔ 0 ≤ signedSum ring)
    ∧ (∀ ring : List OSMNode, is_clockwise (make_clockwise ring) = true)
    ∧ (∀ ring : List OSMNode, make_clockwise (make_clockwise ring) = make_clockwise ring)
    ∧ (∀ ring : List OSMNode, signedSum ring = 0 →
        make_counter_clockwise ring = ring.reverse)
    ∧ (∀ ring : List OSMNode,
        make_counter_clockwise (make_counter_clockwise ring) = make_counter_clockwise ring
          ↔ (signedSum ring ≠ 0 ∨ ring.reverse = ring)) := by
  have key : ∀ ring : List OSMNode, is_clockwise (make_clockwise ring) = true := by
    intro ring
    by_cases h : is_clockwise ring = true
    · simp [make_clockwise, h]
    · have hf : is_clockwise ring = false := by
        cases hh : is_clockwise ring
        · rfl
        · exact absurd hh h
      simp only [make_clockwise, hf, Bool.false_eq_true, if_false]
      exact is_clockwise_reverse_of_not ring hf
  have keyRev : ∀ ring : List OSMNode, signedSum ring = 0 →
      make_counter_clockwise ring = ring.reverse := by
    intro ring hz
    have hcw : is_clockwise ring = true := by simp [is_clockwise, hz]
    simp [make_counter_clockwise, hcw]
  have keyNe : ∀ ring : List OSMNode, signedSum ring ≠ 0 →
      make_counter_clockwise (make_counter_clockwise ring) = make_counter_clockwise ring := by
    intro ring hne
    by_cases h : is_clockwise ring = true
    · have hpos : 0 < signedSum ring := by
        simp only [is_clockwise, decide_eq_true_eq] at h
        exact lt_of_le_of_ne h (Ne.symm hne)
      have e1 : make_counter_clockwise ring = ring.reverse := by
        simp [make_counter_clockwise, h]
      have h2 : is_clockwise ring.reverse = false := by
        simp only [is_clockwise, signedSum_reverse, decide_eq_false_iff_not, not_le]
        linarith
      rw [e1]
      simp [make_counter_clockwise, h2]
    · have hf : is_clockwise ring = false := by
        cases hh : is_clockwise ring
        · rfl
        · exact absurd hh h
      simp [make_counter_clockwise, hf]
  refine ⟨fun ring => by simp [is_clockwise], key, ?_, keyRev, ?_⟩
  · intro ring
    by_cases h : is_clockwise ring = true
    · simp [make_clockwise, h]
    · have hf : is_clockwise ring = false := by
        cases hh : is_clockwise ring
        · rfl
        · exact absurd hh h
      have h2 : is_clockwise ring.reverse = true := is_clockwise_reverse_of_not ring hf
      simp [make_clockwise, hf, h2]
  · intro ring
    by_cases hz : signedSum ring = 0
    · have e1 : make_counter_clockwise ring = ring.reverse := keyRev ring hz
      have hz2 : signedSum ring.reverse = 0 := by rw [signedSum_reverse, hz]; ring
      have e2 : make_counter_clockwise ring.reverse = ring.reverse.reverse :=
        keyRev ring.reverse hz2
      rw [e1, e2, List.reverse_reverse]
      constructor
      · intro h
        exact Or.inr h.symm
      · rintro (h | h)
        · exact absurd hz h
        · exact h.symm
    · constructor
      · intro _
        exact Or.inl hz
      · intro _
        exact keyNe ring hz

/-- A counter-clockwise square ring with nonzero signed area. -/
def squareRing : List OSMNode := [nd 0 0, nd 0 1, nd 1 1, nd 1 0]

theorem squareRing_signedSum_ne : signedSum squareRing ≠ 0 := by
  norm_num [squareRing, signedSum, osumList, edgeTerm, nd]

theorem degenerateRing_signedSum_eq : signedSum degenerateRing = 0 := by
  norm_num [degenerateRing, signedSum, osumList, edgeTerm, nd]

/-- Witness for C3: on the zero-area two-node ring one application of
`make_counter_clockwise` reverses it, and the amended idempotence
characterization applied to the square ring, whose signed area is
nonzero. -/
theorem c3_winding_normalization_witness :
    make_counter_clockwise degenerateRing = degenerateRing.reverse
    ∧ make_counter_clockwise (make_counter_clockwise squareRing)
        = make_counter_clockwise squareRing :=
  ⟨c3_winding_normalization.2.2.2.1 degenerateRing degenerateRing_signedSum_eq,
    (c3_winding_normalization.2.2.2.2 squareRing).mpr (Or.inl squareRing_signedSum_ne)⟩

/-! ## `figure.py`: `StyledFigure` ordering (`get_layer`, `__lt__`) -/

/-- Modelled from the spec: the style record attached to a styled figure;
only its `priority` number (spec §3, "StyledFigure: Figure + {style,
priority, parallel_offset}") takes part in ordering and in the road-priority
threshold of the scene composer.  The defining module (`scheme.py`) is not
part of the provided sources. -/
structure LineStyle where
  priority : ℚ
  deriving DecidableEq, Repr

/-- `StyledFigure`: tags plus ring geometry plus a line style.  The rings are
kept as node lists exactly as `Figure` stores them (`inners`/`outers`). -/
structure StyledFigure where
  tags : List (String × String)
  inners : List (List OSMNode)
  outers : List (List OSMNode)
  line_style : LineStyle
  deriving DecidableEq, Repr

/-- `StyledFigure.get_layer`: the `layer` tag parsed as a float; `0.0` when
the tag is missing or `float` raises `ValueError`. -/
def get_layer (f : StyledFigure) : ℚ :=
  match List.lookup "layer" f.tags with
  | none => 0
  | some s =>
      match parseFloatStr s with
      | none => 0
      | some v => v

/-- `StyledFigure.__lt__`: compare by parsed layer first, then by style
priority. -/
def styledFigureLt (f other : StyledFigure) : Bool :=
  if get_layer f ≠ get_layer other then decide (get_layer f < get_layer other)
  else decide (f.line_style.priority < other.line_style.priority)

/-- The two-level sort key of a styled figure. -/
def figureKey (f : StyledFigure) : ℚ × ℚ :=
  (get_layer f, f.line_style.priority)

/-- Claim C7: `StyledFigure`'s comparison is a strict weak order — it is
transitive, and figures with equal `(layer, priority)` keys are neither less
nor greater — and the primary key is the `layer` tag parsed as a float
(defaulting to `0.0` when the tag is missing or fails to parse) while the
secondary key is the style priority. -/
theorem c7_styled_figure_strict_weak_order :
    (∀ a b c : StyledFigure,
      styledFigureLt a b = true → styledFigureLt b c = true → styledFigureLt a c = true)
    ∧ (∀ a b : StyledFigure, figureKey a = figureKey b →
        styledFigureLt a b = false ∧ styledFigureLt b a = false)
    ∧ (∀ a b : StyledFigure,
        styledFigureLt a b = true ↔
          (get_layer a < get_layer b ∨
            (get_layer a = get_layer b ∧ a.line_style.priority < b.line_style.priority)))
    ∧ (∀ f : StyledFigure, List.lookup "layer" f.tags = none → get_layer f = 0)
    ∧ (∀ f : StyledFigure, ∀ s : String, List.lookup "layer" f.tags = some s →
        parseFloatStr s = none → get_layer f = 0)
    ∧ (∀ f : StyledFigure, ∀ s : String, ∀ v : ℚ, List.lookup "layer" f.tags = some s →
        parseFloatStr s = some v → get_layer f = v) := by
  have hiff : ∀ a b : StyledFigure,
      styledFigureLt a b = true ↔
        (get_layer a < get_layer b ∨
          (get_layer a = get_layer b ∧ a.line_style.priority < b.line_style.priority)) := by
    intro a b
    by_cases h : get_layer a = get_layer b
    · simp [styledFigureLt, h]
    · simp only [styledFigureLt, if_pos (by exact h), decide_eq_true_eq]
      constructor
      · intro hl; exact Or.inl hl
      · rintro (hl | ⟨he, _⟩)
        · exact hl
        · exact absurd he h
  refine ⟨?_, ?_, hiff, ?_, ?_, ?_⟩
  · intro a b c hab hbc
    rw [hiff] at hab hbc ⊢
    rcases hab with h1 | ⟨h1, h1p⟩ <;> rcases hbc with h2 | ⟨h2, h2p⟩
    · exact Or.inl (lt_trans h1 h2)
    · exact Or.inl (h2 ▸ h1)
    · exact Or.inl (h1 ▸ h2)
    · exact Or.inr ⟨h1.trans h2, lt_trans h1p h2p⟩
  · intro a b hk
    have h1 : get_layer a = get_layer b := congrArg Prod.fst hk
    have h2 : a.line_style.priority = b.line_style.priority := congrArg Prod.snd hk
    constructor
    · rw [Bool.eq_false_iff]
      intro hlt
      rw [hiff] at hlt
      rcases hlt with h | ⟨_, h⟩
      · exact absurd h1 (ne_of_lt h)
      · exact absurd h2 (ne_of_lt h)
    · rw [Bool.eq_false_iff]
      intro hlt
      rw [hiff] at hlt
      rcases hlt with h | ⟨_, h⟩
      · exact absurd h1.symm (ne_of_lt h)
      · exact absurd h2.symm (ne_of_lt h)
  · intro f hnone
    simp [get_layer, hnone]
  · intro f s hsome hfail
    simp [get_layer, hsome, hfail]
  · intro f s v hsome hval
    simp [get_layer, hsome, hval]

/-- Concrete figures for the C7 witness: no layer tags, priorities 1 < 2. -/
def figP (p : ℚ) : StyledFigure := ⟨[], [], [], ⟨p⟩⟩

/-- Figure with an unparsable `layer` tag. -/
def figBadLayer : StyledFigure := ⟨[("layer", "x")], [], [], ⟨5⟩⟩

/-- Witness for C7: transitivity applied at priorities 1, 2, 3; equal-key
incomparability applied at two copies of the same key; the default-layer
clauses applied to a tagless figure and to a figure with an unparsable tag. -/
theorem c7_styled_figure_strict_weak_order_witness :
    styledFigureLt (figP 1) (figP 3) = true
    ∧ (styledFigureLt (figP 1) (figP 1) = false ∧ styledFigureLt (figP 1) (figP 1) = false)
    ∧ get_layer (figP 1) = 0
    ∧ get_layer figBadLayer = 0 :=
  ⟨c7_styled_figure_strict_weak_order.1 (figP 1) (figP 2) (figP 3) (by decide) (by decide),
   c7_styled_figure_strict_weak_order.2.1 (figP 1) (figP 1) rfl,
   c7_styled_figure_strict_weak_order.2.2.2.1 (figP 1) rfl,
   c7_styled_figure_strict_weak_order.2.2.2.2.1 figBadLayer "x" rfl rfl⟩

/-! ## `drawing.py`: the path mini-language (`parse_path`) and the PNG
backend's interpreter (`PNGDrawing._do_path`).

`parse_path` turns the text into a mixed list of command letters, scalars and
numpy point arrays; `_do_path` walks that list keeping a current point, an
absolute/relative flag, the active command, and `start_point`, issuing cairo
`move_to` / `line_to` / `curve_to` calls, which are modelled as a pure event
trace.  Python exceptions become `PyErr` values. -/

/-- Python exceptions raised by the path front end and interpreter. -/
inductive PyErr
  | valueError
  | indexError
  | typeError
  | notImplementedError
  | assertionError
  deriving DecidableEq, Repr

/-- One element of the `PathCommands` list built by `parse_path`: a command
letter token (a string), a bare float (`V`/`H` operands), or a numpy array of
the comma-separated floats of a point token. -/
inductive PathElem
  | cmd (s : List Char)
  | num (v : ℚ)
  | pt (coords : List ℚ)
  deriving DecidableEq, Repr

/-- Whether a path element is a command-letter token. -/
def PathElem.isCmd : PathElem → Bool
  | .cmd _ => true
  | _ => false

/-- The command-letter alphabet `"CcLlMmZzVvHh"` of `parse_path`. -/
def pathLetters : List Char := "CcLlMmZzVvHh".toList

/-- The scalar-operand commands `"VvHh"`. -/
def vhLetters : List Char := "VvHh".toList

/-- The string `"ml"` tested by `command in "ml"` in `_do_path`. -/
def mlStr : List Char := "ml".toList

/-- The string `"vh"` tested by `command in "vh"` in `_do_path`. -/
def vhStr : List Char := "vh".toList

/-- `float` applied to every piece of a comma-separated point token, failing
on the first piece Python's `float` would reject. -/
def parseFloatList : List (List Char) → Option (List ℚ)
  | [] => some []
  | c :: cs =>
      match parseFloat c with
      | none => none
      | some v =>
          match parseFloatList cs with
          | none => none
          | some vs => some (v :: vs)

/-- The loop of `parse_path` over whitespace-separated tokens; `command` is
the letter most recently seen (initially `"M"`).  A token that is a substring
of `"CcLlMmZzVvHh"` selects a command; under `V`/`H` a token is a bare float;
otherwise a comma token becomes one point array, and a lone number consumes
the following token as the second coordinate (raising `IndexError` when there
is no following token, as Python's `parts[index + 1]` does). -/
def parsePathTokens (command : List Char) : List (List Char) → Except PyErr (List PathElem)
  | [] => .ok []
  | part :: rest =>
      if listIsInfix part pathLetters then
        (parsePathTokens part rest).map (fun r => .cmd part :: r)
      else if listIsInfix command vhLetters then
        match parseFloat part with
        | none => .error .valueError
        | some v => (parsePathTokens command rest).map (fun r => .num v :: r)
      else if ',' ∈ part then
        match parseFloatList (splitOnChar ',' part) with
        | none => .error .valueError
        | some vs => (parsePathTokens command rest).map (fun r => .pt vs :: r)
      else
        match parseFloat part with
        | none => .error .valueError
        | some v1 =>
            match rest with
            | [] => .error .indexError
            | nxt :: rest2 =>
                match parseFloat nxt with
                | none => .error .valueError
                | some v2 => (parsePathTokens command rest2).map (fun r => .pt [v1, v2] :: r)

/-- `parse_path(path)`: split on single spaces and run the token loop with
initial command `"M"`. -/
def parse_path (s : String) : Except PyErr (List PathElem) :=
  parsePathTokens ['M'] (splitOnChar ' ' s.toList)

/-- A numpy-ish value living in `_do_path`'s variables: a scalar, an array,
or a leftover string (the unreachable case of a letter token consumed as a
`C` operand). -/
inductive NpVal
  | scalar (v : ℚ)
  | arr (l : List ℚ)
  | strV (s : List Char)
  deriving DecidableEq, Repr

/-- Subscripting `point[i]`: arrays index (raising `IndexError` out of
range); scalars and strings are not usable as cairo coordinates. -/
def npIndex (v : NpVal) (i : ℕ) : Except PyErr ℚ :=
  match v with
  | .scalar _ => .error .typeError
  | .strV _ => .error .typeError
  | .arr l =>
      match l[i]? with
      | some x => .ok x
      | none => .error .indexError

/-- numpy addition `a + b` with broadcasting of scalars over arrays;
mismatched array lengths and string operands raise. -/
def npAdd (a b : NpVal) : Except PyErr NpVal :=
  match a, b with
  | .scalar v, .scalar w => .ok (.scalar (v + w))
  | .arr l, .scalar v => .ok (.arr (l.map (· + v)))
  | .scalar v, .arr l => .ok (.arr (l.map (v + ·)))
  | .arr l, .arr m =>
      if l.length = m.length then .ok (.arr (List.zipWith (· + ·) l m))
      else .error .valueError
  | _, _ => .error .typeError

/-- The value of a non-letter path element as seen by `_do_path`. -/
def elemNp : PathElem → NpVal
  | .num v => .scalar v
  | .pt l => .arr l
  | .cmd s => .strV s

/-- `element.lower()`. -/
def lowerList (s : List Char) : List Char :=
  s.map Char.toLower

/-- A cairo drawing call issued by `_do_path`. -/
inductive DrawEvent
  | moveTo (x y : ℚ)
  | lineTo (x y : ℚ)
  | curveTo (x1 y1 x2 y2 x3 y3 : ℚ)
  deriving DecidableEq, Repr

/-- The value of `_do_path`'s `start_point` variable.  It is initialised to
the empty tuple `()` (`emptyV`) and reset to it after every `Z`; the guard in
the source tests `start_point is None` (`noneV`), a value that is never
actually stored. -/
inductive StartVal
  | noneV
  | emptyV
  | ptV (p : NpVal)
  deriving DecidableEq, Repr

/-- The mutable state of `_do_path`'s loop. -/
structure DoPathState where
  current : NpVal
  start_point : StartVal
  command : List Char
  is_absolute : Bool
  deriving DecidableEq, Repr

/-- Initial state: `current = np.array((0.0, 0.0))`, `start_point = ()`,
`command = 'M'`, `is_absolute = True`. -/
def initDoPathState : DoPathState :=
  ⟨.arr [0, 0], .emptyV, ['M'], true⟩

/-- The `move_to`/`line_to` calls of the `"ml"` branch: one event when the
active command is exactly `m` or exactly `l`, none otherwise. -/
def mlEvents (command : List Char) (point : NpVal) : Except PyErr (List DrawEvent) :=
  if command = ['m'] then
    match npIndex point 0 with
    | .error e => .error e
    | .ok x =>
        match npIndex point 1 with
        | .error e => .error e
        | .ok y => .ok [.moveTo x y]
  else if command = ['l'] then
    match npIndex point 0 with
    | .error e => .error e
    | .ok x =>
        match npIndex point 1 with
        | .error e => .error e
        | .ok y => .ok [.lineTo x y]
  else .ok []

/-- The single `curve_to` call, subscripting its three control points in
argument order. -/
def curveEvent (p1 p2 p3 : NpVal) : Except PyErr DrawEvent :=
  match npIndex p1 0 with
  | .error e => .error e
  | .ok x1 =>
  match npIndex p1 1 with
  | .error e => .error e
  | .ok y1 =>
  match npIndex p2 0 with
  | .error e => .error e
  | .ok x2 =>
  match npIndex p2 1 with
  | .error e => .error e
  | .ok y2 =>
  match npIndex p3 0 with
  | .error e => .error e
  | .ok x3 =>
  match npIndex p3 1 with
  | .error e => .error e
  | .ok y3 => .ok (.curveTo x1 y1 x2 y2 x3 y3)

/-- Resolution of an operand element: taken literally in absolute mode,
added to the current point (`current + commands[index]`) in relative mode. -/
def resolveOperand (st : DoPathState) (e : PathElem) : Except PyErr NpVal :=
  if st.is_absolute then .ok (elemNp e) else npAdd st.current (elemNp e)

/-- One step of the `"ml"` branch: resolve the point, issue the
`move_to`/`line_to` call, update `current` and (when it were `None`)
`start_point`. -/
def mlStep (st : DoPathState) (el : PathElem) : Except PyErr (List DrawEvent × DoPathState) :=
  match resolveOperand st el with
  | .error e => .error e
  | .ok point =>
      match mlEvents st.command point with
      | .error e => .error e
      | .ok evts =>
          let sp := if st.start_point = .noneV then .ptV point else st.start_point
          .ok (evts, ⟨point, sp, st.command, st.is_absolute⟩)

/-- Tail of the `'c'` branch once the first two control points are resolved:
resolve the third point, issue `curve_to`, update `current` to the third
point and `start_point` (when it were `None`) to the first. -/
def cStepTail (st : DoPathState) (p1 p2 : NpVal) (e3 : PathElem) :
    Except PyErr (DrawEvent × DoPathState) :=
  match resolveOperand st e3 with
  | .error e => .error e
  | .ok p3 =>
      match curveEvent p1 p2 p3 with
      | .error e => .error e
      | .ok evt =>
          let sp := if st.start_point = .noneV then .ptV p1 else st.start_point
          .ok (evt, ⟨p3, sp, st.command, st.is_absolute⟩)

/-- One step of the `"vh"` branch on a float operand: the point is built
with the *other* axis literally `0.0` in absolute mode and as
`current + (0, v)` / `current + (v, 0)` in relative mode; a `line_to` is
issued. -/
def vhStep (st : DoPathState) (v : ℚ) : Except PyErr (DrawEvent × DoPathState) :=
  let delta : NpVal := if st.command = ['v'] then .arr [0, v] else .arr [v, 0]
  match (if st.is_absolute then .ok delta else npAdd st.current delta :
      Except PyErr NpVal) with
  | .error e => .error e
  | .ok point =>
      match npIndex point 0 with
      | .error e => .error e
      | .ok x =>
          match npIndex point 1 with
          | .error e => .error e
          | .ok y =>
              let sp := if st.start_point = .noneV then .ptV point else st.start_point
              .ok (.lineTo x y, ⟨point, sp, st.command, st.is_absolute⟩)

/-- The `while` loop of `PNGDrawing._do_path`, returning the cairo calls
issued before the loop finished or an exception stopped it.  The two
operand arms (`num`, `pt`) follow the same branch ladder
(`command in "ml"`, `command == 'c'`, `command in "vh"`, else
`NotImplementedError`); under `"vh"` a non-float operand trips the
`assert isinstance(commands[index], float)`. -/
def doPathAux (st : DoPathState) : List PathElem → List DrawEvent × Option PyErr
  | [] => ([], none)
  | .cmd s :: rest =>
      let isAbs := decide (lowerList s ≠ s)
      let c := lowerList s
      if c = ['z'] then
        match st.start_point with
        | .noneV => ([], some .typeError)
        | .emptyV => ([], some .indexError)
        | .ptV p =>
            match npIndex p 0 with
            | .error e => ([], some e)
            | .ok x =>
                match npIndex p 1 with
                | .error e => ([], some e)
                | .ok y =>
                    let res := doPathAux ⟨p, .emptyV, c, isAbs⟩ rest
                    (.lineTo x y :: res.1, res.2)
      else
        doPathAux ⟨st.current, st.start_point, c, isAbs⟩ rest
  | .num v :: rest =>
      if listIsInfix st.command mlStr then
        match mlStep st (.num v) with
        | .error e => ([], some e)
        | .ok (evts, st') =>
            let res := doPathAux st' rest
            (evts ++ res.1, res.2)
      else if st.command = ['c'] then
        match resolveOperand st (.num v) with
        | .error e => ([], some e)
        | .ok p1 =>
            match rest with
            | [] => ([], some .indexError)
            | e2 :: rest2 =>
                match resolveOperand st e2 with
                | .error e => ([], some e)
                | .ok p2 =>
                    match rest2 with
                    | [] => ([], some .indexError)
                    | e3 :: rest3 =>
                        match cStepTail st p1 p2 e3 with
                        | .error e => ([], some e)
                        | .ok (evt, st') =>
                            let res := doPathAux st' rest3
                            (evt :: res.1, res.2)
      else if listIsInfix st.command vhStr then
        match vhStep st v with
        | .error e => ([], some e)
        | .ok (evt, st') =>
            let res := doPathAux st' rest
            (evt :: res.1, res.2)
      else
        ([], some .notImplementedError)
  | .pt l :: rest =>
      if listIsInfix st.command mlStr then
        match mlStep st (.pt l) with
        | .error e => ([], some e)
        | .ok (evts, st') =>
            let res := doPathAux st' rest
            (evts ++ res.1, res.2)
      else if st.command = ['c'] then
        match resolveOperand st (.pt l) with
        | .error e => ([], some e)
        | .ok p1 =>
            match rest with
            | [] => ([], some .indexError)
            | e2 :: rest2 =>
                match resolveOperand st e2 with
                | .error e => ([], some e)
                | .ok p2 =>
                    match rest2 with
                    | [] => ([], some .indexError)
                    | e3 :: rest3 =>
                        match cStepTail st p1 p2 e3 with
                        | .error e => ([], some e)
                        | .ok (evt, st') =>
                            let res := doPathAux st' rest3
                            (evt :: res.1, res.2)
      else if listIsInfix st.command vhStr then
        ([], some .assertionError)
      else
        ([], some .notImplementedError)

/-- `PNGDrawing._do_path(commands)` from the initial state. -/
def pngDoPath (commands : List PathElem) : List DrawEvent × Option PyErr :=
  doPathAux initDoPathState commands

/-- Parse a path text and execute it on the PNG backend. -/
def pngRenderPath (s : String) : List DrawEvent × Option PyErr :=
  match parse_path s with
  | .error e => ([], some e)
  | .ok commands => pngDoPath commands

/-- Claim C1 (code bug, failing input): executing the parsed path
`"M 0,0 L 10,0 L 10,10 Z"` on the PNG backend moves to `(0,0)`, draws lines
to `(10,0)` and `(10,10)`, and then raises `IndexError` at `Z` instead of
drawing the closing line back to `(0,0)`: `start_point` is initialised to
the empty tuple `()` yet the guard that should record the subpath start
tests `start_point is None`, which never holds, so `Z` subscripts an empty
tuple. -/
theorem c1_png_close_raises_index_error :
    pngRenderPath "M 0,0 L 10,0 L 10,10 Z" =
      ([.moveTo 0 0, .lineTo 10 0, .lineTo 10 10], some .indexError) := by
  decide

/-- Claim C5 (code bug, failing input): on an absolute `V 3` after `M 5,5`
the PNG interpreter draws a line to `(0, 3)` — the non-addressed `x`
coordinate is overwritten with `0` rather than kept at `5`, so the pen moves
along both axes; in relative mode (`v`/`h`) the other axis really is treated
as `0`, leaving the non-addressed coordinate unchanged. -/
theorem c5_vertical_absolute_resets_other_axis :
    pngRenderPath "M 5,5 V 3" = ([.moveTo 5 5, .lineTo 0 3], none)
    ∧ (∀ x y d : ℚ, ∀ sp : StartVal,
        doPathAux ⟨.arr [x, y], sp, ['v'], false⟩ [.num d] = ([.lineTo x (y + d)], none))
    ∧ (∀ x y d : ℚ, ∀ sp : StartVal,
        doPathAux ⟨.arr [x, y], sp, ['h'], false⟩ [.num d] = ([.lineTo (x + d) y], none)) := by
  refine ⟨by decide, ?_, ?_⟩
  · intro x y d sp
    have hml : listIsInfix ['v'] mlStr = false := by decide
    have hvh : listIsInfix ['v'] vhStr = true := by decide
    simp [doPathAux, hml, hvh, vhStep, npAdd, npIndex]
  · intro x y d sp
    have hml : listIsInfix ['h'] mlStr = false := by decide
    have hvh : listIsInfix ['h'] vhStr = true := by decide
    simp [doPathAux, hml, hvh, vhStep, npAdd, npIndex]

/-- Claim C8 (counterexample): `parse_path "M 0,0 L"` returns a result even
though the `L` command's point operand is required and missing — no
`ParseError` is raised for a trailing command letter with missing operands,
contradicting the claim's "raises ... whenever a numeric operand token is
missing where one is required". -/
theorem c8_trailing_letter_parses_without_error :
    parse_path "M 0,0 L" = .ok [.cmd ['M'], .pt [0, 0], .cmd ['L']] := by
  rfl

/-- Claim C8 (amended): `parse_path` raises an error whenever a point
component cannot be parsed as a number (`ValueError`), whenever a `V`/`H`
operand cannot be parsed (`ValueError`), and whenever a lone comma-free
coordinate token is the last token so its second coordinate is missing
(`IndexError`); but a trailing command letter whose operands are entirely
missing is accepted without error.  Executing a path in which an operand
follows an unrecognized command letter raises `NotImplementedError`
(UnsupportedCommand) on the PNG interpreter. -/
theorem c8_parse_and_execute_errors :
    (∀ (command part : List Char) (rest : List (List Char)),
      listIsInfix part pathLetters = false →
      listIsInfix command vhLetters = false →
      ',' ∈ part →
      parseFloatList (splitOnChar ',' part) = none →
      parsePathTokens command (part :: rest) = .error .valueError)
    ∧ (∀ (command part : List Char) (rest : List (List Char)),
      listIsInfix part pathLetters = false →
      listIsInfix command vhLetters = true →
      parseFloat part = none →
      parsePathTokens command (part :: rest) = .error .valueError)
    ∧ (∀ (command part : List Char) (v : ℚ),
      listIsInfix part pathLetters = false →
      listIsInfix command vhLetters = false →
      ¬ ',' ∈ part →
      parseFloat part = some v →
      parsePathTokens command [part] = .error .indexError)
    ∧ parse_path "M 0,0 L" = .ok [.cmd ['M'], .pt [0, 0], .cmd ['L']]
    ∧ (∀ (st : DoPathState) (s : List Char) (el : PathElem) (rest : List PathElem),
      el.isCmd = false →
      lowerList s ≠ ['z'] →
      listIsInfix (lowerList s) mlStr = false →
      lowerList s ≠ ['c'] →
      listIsInfix (lowerList s) vhStr = false →
      doPathAux st (.cmd s :: el :: rest) = ([], some .notImplementedError)) := by
  refine ⟨?_, ?_, ?_, by rfl, ?_⟩
  · intro command part rest h1 h2 h3 h4
    simp [parsePathTokens, h1, h2, h3, h4]
  · intro command part rest h1 h2 h3
    simp [parsePathTokens, h1, h2, h3]
  · intro command part v h1 h2 h3 h4
    simp [parsePathTokens, h1, h2, h3, h4]
  · intro st s el rest hel hz hml hc hvh
    cases el with
    | cmd s' => simp [PathElem.isCmd] at hel
    | num v => simp [doPathAux, hz, hml, hc, hvh]
    | pt l => simp [doPathAux, hz, hml, hc, hvh]

/-- Witness for C8: the error clauses applied at the concrete inputs
`"x,0"` (unparsable component), `"x"` under `V`, the lone token `"5"`, and
an operand following the unrecognized letter `Q`. -/
theorem c8_parse_and_execute_errors_witness :
    parsePathTokens ['M'] [['x', ',', '0']] = .error .valueError
    ∧ parsePathTokens ['V'] [['x']] = .error .valueError
    ∧ parsePathTokens ['M'] [['5']] = .error .indexError
    ∧ doPathAux initDoPathState [.cmd ['Q'], .pt [1, 1]] = ([], some .notImplementedError) :=
  ⟨c8_parse_and_execute_errors.1 ['M'] ['x', ',', '0'] [] (by decide) (by decide) (by decide)
      (by decide),
   c8_parse_and_execute_errors.2.1 ['V'] ['x'] [] (by decide) (by decide) (by decide),
   c8_parse_and_execute_errors.2.2.1 ['M'] ['5'] 5 (by decide) (by decide) (by decide)
      (by decide),
   c8_parse_and_execute_errors.2.2.2.2 initDoPathState ['Q'] (.pt [1, 1]) [] (by decide)
      (by decide) (by decide) (by decide) (by decide)⟩

/-! ## Colors: the `colour` third-party library.

`Color` objects are modelled by their rgb channel triple; the library's
luminance operations go through the standard HSL conversion the library
implements (`get_luminance` is the HSL `l` component, `set_luminance`
replaces it and converts back). -/

/-- An rgb color triple as stored by `colour.Color`. -/
structure PyColor where
  red : ℚ
  green : ℚ
  blue : ℚ
  deriving DecidableEq, Repr

/-- `x mod 6` on rationals, used by the hue computation. -/
def qmod6 (q : ℚ) : ℚ := q - 6 * ⌊q / 6⌋

/-- Modelled from the external `colour` library: rgb → hsl (hue in turns). -/
def rgb2hsl (c : PyColor) : ℚ × ℚ × ℚ :=
  let maxc := max c.red (max c.green c.blue)
  let minc := min c.red (min c.green c.blue)
  let l := (maxc + minc) / 2
  if maxc = minc then (0, 0, l)
  else
    let d := maxc - minc
    let s := if l ≤ 1/2 then d / (maxc + minc) else d / (2 - maxc - minc)
    let hseg : ℚ :=
      if maxc = c.red then qmod6 ((c.green - c.blue) / d)
      else if maxc = c.green then (c.blue - c.red) / d + 2
      else (c.red - c.green) / d + 4
    (hseg / 6, s, l)

/-- Modelled from the external `colour` library: the hue helper of
hsl → rgb. -/
def hue2rgb (p q t0 : ℚ) : ℚ :=
  let t1 := if t0 < 0 then t0 + 1 else t0
  let t := if t1 > 1 then t1 - 1 else t1
  if t < 1/6 then p + (q - p) * 6 * t
  else if t < 1/2 then q
  else if t < 2/3 then p + (q - p) * (2/3 - t) * 6
  else p

/-- Modelled from the external `colour` library: hsl → rgb. -/
def hsl2rgb (h s l : ℚ) : PyColor :=
  if s = 0 then ⟨l, l, l⟩
  else
    let q := if l < 1/2 then l * (1 + s) else l + s - l * s
    let p := 2 * l - q
    ⟨hue2rgb p q (h + 1/3), hue2rgb p q h, hue2rgb p q (h - 1/3)⟩

/-- `Color.get_luminance()`: the HSL luminance `(max + min) / 2`. -/
def getLuminance (c : PyColor) : ℚ :=
  (max c.red (max c.green c.blue) + min c.red (min c.green c.blue)) / 2

/-- `Color.set_luminance(l)`: keep hue and saturation, replace luminance. -/
def setLuminance (c : PyColor) (l : ℚ) : PyColor :=
  let hsl := rgb2hsl c
  hsl2rgb hsl.1 hsl.2.1 l

/-! ## `feature/building.py`: `Building` attribute derivation and wall
illumination (`draw_walls`). -/

/-- `BUILDING_MINIMAL_HEIGHT` (the constant `B` of the spec). -/
def BUILDING_MINIMAL_HEIGHT : ℚ := 8

/-- `BUILDING_SCALE`. -/
def BUILDING_SCALE : ℚ := 0.33

/-- `LEVEL_HEIGHT` (the constant `L` of the spec). -/
def LEVEL_HEIGHT : ℚ := 2.5

/-- `SHADE_SCALE`. -/
def SHADE_SCALE : ℚ := 0.4

/-- Modelled from the spec: a wall `Segment` (§3) — a directed point pair
with a derived scalar `angle` "used only for illumination"; its defining
module (`geometry/vector.py`) is not part of the provided sources, so the
angle is carried as data. -/
structure Segment where
  point_1 : ℚ × ℚ
  point_2 : ℚ × ℚ
  angle : ℚ
  deriving DecidableEq, Repr

/-- The ordered comparison key of a segment. -/
def segKey (s : Segment) : Lex (ℚ × Lex (ℚ × Lex (ℚ × Lex (ℚ × ℚ)))) :=
  toLex (s.point_1.1, toLex (s.point_1.2, toLex (s.point_2.1, toLex (s.point_2.2, s.angle))))

/-- Modelled from the spec: the total order on segments (§3 "must be totally
ordered"); the exact comparison is not in the provided sources, so a
lexicographic order on the stored fields is used. -/
def segR (s t : Segment) : Prop := segKey s ≤ segKey t

instance : DecidableRel segR := fun s t =>
  inferInstanceAs (Decidable (segKey s ≤ segKey t))

instance : IsTotal Segment segR := ⟨fun s t => le_total (segKey s) (segKey t)⟩

instance : IsTrans Segment segR := ⟨fun _ _ _ h1 h2 => le_trans h1 h2⟩

/-- Modelled from the spec: the style scheme consulted for named colors, the
material color table, and the `Color(text)` constructor (`scheme.py` is not
part of the provided sources). -/
structure Scheme where
  get_color : String → PyColor
  material_colors : List (String × String)
  color_of : String → PyColor

/-- `tags.get(key)`. -/
def tagsGet (tags : List (String × String)) (key : String) : Option String :=
  List.lookup key tags

/-- Python truthiness of an optional string (`if value := tags.get(key)`):
`None` and the empty string are falsy. -/
def truthyStr : Option String → Option String
  | some s => if s = "" then none else some s
  | none => none

/-- Python truthiness of an optional float: `None` and `0.0` are falsy. -/
def truthyFloat : Option ℚ → Option ℚ
  | some v => if v = 0 then none else some v
  | none => none

/-- Modelled from the spec: `Tagged.get_float(key)` of the absent
`osm_reader.py` — the tag value parsed as a float, `None` when missing or
unparsable. -/
def get_float (tags : List (String × String)) (key : String) : Option ℚ :=
  match tagsGet tags key with
  | none => none
  | some s => parseFloatStr s

/-- Modelled from the spec: `Tagged.get_length(key)` of the absent
`osm_reader.py` — the tag value parsed as a length in meters ("explicit
height length"), `None` when missing or unparsable. -/
def get_length (tags : List (String × String)) (key : String) : Option ℚ :=
  match tagsGet tags key with
  | none => none
  | some s => parseFloatStr s

/-- `tags.get("building") == "construction" or tags.get("construction") == "yes"`. -/
def building_is_construction (tags : List (String × String)) : Bool :=
  tagsGet tags "building" = some "construction" || tagsGet tags "construction" = some "yes"

/-- `tags.get("building") != "roof"`. -/
def building_has_walls (tags : List (String × String)) : Bool :=
  tagsGet tags "building" ≠ some "roof"

/-- The `default_fill` assignment of `Building.__init__`. -/
def building_default_fill (scheme : Scheme) (tags : List (String × String)) : PyColor :=
  if building_is_construction tags then scheme.get_color "building_construction_color"
  else scheme.get_color "building_color"

/-- The `default_stroke` assignment of `Building.__init__`. -/
def building_default_stroke (scheme : Scheme) (tags : List (String × String)) : PyColor :=
  if building_is_construction tags then scheme.get_color "building_construction_border_color"
  else scheme.get_color "building_border_color"

/-- The `fill` assignment: the `roof:colour` tag when truthy, else the
scheme's building color. -/
def building_fill (scheme : Scheme) (tags : List (String × String)) : PyColor :=
  match truthyStr (tagsGet tags "roof:colour") with
  | some c => scheme.get_color c
  | none => scheme.get_color "building_color"

/-- The `stroke` assignment: with a truthy `roof:colour`, the fill color
darkened to 85 % luminance, else the scheme's border color. -/
def building_stroke (scheme : Scheme) (tags : List (String × String)) : PyColor :=
  match truthyStr (tagsGet tags "roof:colour") with
  | some c => setLuminance (scheme.get_color c) (getLuminance (scheme.get_color c) * 0.85)
  | none => scheme.get_color "building_border_color"

/-- The `wall_default_color` assignment. -/
def building_wall_default_color (scheme : Scheme) (tags : List (String × String)) : PyColor :=
  if building_is_construction tags then scheme.get_color "wall_construction_color"
  else scheme.get_color "wall_color"

/-- The `wall_color` assignment sequence of `Building.__init__`: start from
the default, then overwrite in turn on a truthy `building:material` found in
the material table, a truthy `building:colour`, and a truthy `colour`. -/
def building_wall_color (scheme : Scheme) (tags : List (String × String)) : PyColor :=
  let c0 := building_wall_default_color scheme tags
  let c1 :=
    match truthyStr (tagsGet tags "building:material") with
    | some m =>
        match List.lookup m scheme.material_colors with
        | some hex => scheme.color_of hex
        | none => c0
    | none => c0
  let c2 :=
    match truthyStr (tagsGet tags "building:colour") with
    | some c => scheme.get_color c
    | none => c1
  match truthyStr (tagsGet tags "colour") with
  | some c => scheme.get_color c
  | none => c2

/-- The `height` assignment sequence: start from `BUILDING_MINIMAL_HEIGHT`,
overwrite on a truthy `building:levels`, then overwrite on a truthy
`height` length. -/
def building_height (tags : List (String × String)) : ℚ :=
  let h1 :=
    match truthyFloat (get_float tags "building:levels") with
    | some levels => BUILDING_MINIMAL_HEIGHT + levels * LEVEL_HEIGHT
    | none => BUILDING_MINIMAL_HEIGHT
  match truthyFloat (get_length tags "height") with
  | some h => BUILDING_MINIMAL_HEIGHT + h
  | none => h1

/-- The `min_height` assignment sequence: start from `0.0`, overwrite on a
truthy `building:min_level`, then overwrite on a truthy `min_height`
length. -/
def building_min_height (tags : List (String × String)) : ℚ :=
  let m1 :=
    match truthyFloat (get_float tags "building:min_level") with
    | some levels => BUILDING_MINIMAL_HEIGHT + levels * LEVEL_HEIGHT
    | none => 0
  match truthyFloat (get_length tags "min_height") with
  | some h => BUILDING_MINIMAL_HEIGHT + h
  | none => m1

/-- A `Building` as constructed by `Building.__init__`. -/
structure Building where
  is_construction : Bool
  has_walls : Bool
  default_fill : PyColor
  default_stroke : PyColor
  fill : PyColor
  stroke : PyColor
  wall_default_color : PyColor
  wall_color : PyColor
  parts : List Segment
  height : ℚ
  min_height : ℚ
  deriving DecidableEq, Repr

/-- The wall-segment list of `Building.__init__`: one segment per
consecutive node pair of every ring (inners first, then outers, each
winding-normalized by `Figure.__init__` when both kinds are present),
then sorted.  The coordinate projection (`flinger.fling`) and the angle
derivation live in modules absent from the provided sources and are taken
as parameters. -/
def mkBuildingParts (inners outers : List (List OSMNode))
    (fling : ℚ × ℚ → ℚ × ℚ) (angleOf : ℚ × ℚ → ℚ × ℚ → ℚ) : List Segment :=
  let both := !inners.isEmpty && !outers.isEmpty
  let inners' := if both then inners.map make_clockwise else inners
  let outers' := if both then outers.map make_counter_clockwise else outers
  let parts := (inners' ++ outers').flatMap (fun nodes =>
    (nodes.zip nodes.tail).map (fun pr =>
      let p1 := fling pr.1.coordinates
      let p2 := fling pr.2.coordinates
      Segment.mk p1 p2 (angleOf p1 p2)))
  List.insertionSort segR parts

/-- `Building.__init__` assembled from the assignments above. -/
def mkBuilding (scheme : Scheme) (tags : List (String × String))
    (inners outers : List (List OSMNode))
    (fling : ℚ × ℚ → ℚ × ℚ) (angleOf : ℚ × ℚ → ℚ × ℚ → ℚ) : Building where
  is_construction := building_is_construction tags
  has_walls := building_has_walls tags
  default_fill := building_default_fill scheme tags
  default_stroke := building_default_stroke scheme tags
  fill := building_fill scheme tags
  stroke := building_stroke scheme tags
  wall_default_color := building_wall_default_color scheme tags
  wall_color := building_wall_color scheme tags
  parts := mkBuildingParts inners outers fling angleOf
  height := building_height tags
  min_height := building_min_height tags

/-- The amended claim's height rule as a first-match cascade: the explicit
`height` length wins over the level count, which wins over the base
constant. -/
def building_height_spec (tags : List (String × String)) : ℚ :=
  match truthyFloat (get_length tags "height") with
  | some h => BUILDING_MINIMAL_HEIGHT + h
  | none =>
      match truthyFloat (get_float tags "building:levels") with
      | some levels => BUILDING_MINIMAL_HEIGHT + levels * LEVEL_HEIGHT
      | none => BUILDING_MINIMAL_HEIGHT

/-- The amended claim's wall-color rule as a first-match cascade: generic
`colour` tag, then `building:colour`, then a `building:material` found in
the material table, then the default wall color. -/
def building_wall_color_spec (scheme : Scheme) (tags : List (String × String)) : PyColor :=
  match truthyStr (tagsGet tags "colour") with
  | some c => scheme.get_color c
  | none =>
      match truthyStr (tagsGet tags "building:colour") with
      | some c => scheme.get_color c
      | none =>
          match truthyStr (tagsGet tags "building:material") with
          | some m =>
              match List.lookup m scheme.material_colors with
              | some hex => scheme.color_of hex
              | none => building_wall_default_color scheme tags
          | none => building_wall_default_color scheme tags

/-- A small concrete scheme distinguishing named colors, material-table
colors and defaults. -/
def c4Scheme : Scheme where
  get_color := fun s => ⟨(s.length : ℚ), 0, 0⟩
  material_colors := [("brick", "#ff0000")]
  color_of := fun s => ⟨0, (s.length : ℚ), 0⟩

/-- Claim C4 (counterexample): with both `building:levels = 4` and
`height = 5` present, the derived height is `B + 5 = 13`, not the claim's
`B + 4·L = 18` — the explicit height tag overwrites the level count; and
with both `building:material = brick` (present in the material table) and
`colour = red`, the wall color comes from the `colour` tag, not from the
material table — the later assignment wins, the reverse of the claimed
resolution order. -/
theorem c4_first_match_counterexample :
    building_height [("building:levels", "4"), ("height", "5")] = 13
    ∧ (13 : ℚ) ≠ BUILDING_MINIMAL_HEIGHT + 4 * LEVEL_HEIGHT
    ∧ building_wall_color c4Scheme [("building:material", "brick"), ("colour", "red")] =
        c4Scheme.get_color "red"
    ∧ c4Scheme.get_color "red" ≠ c4Scheme.color_of "#ff0000" := by
  have h1 : truthyFloat (get_float [("building:levels", "4"), ("height", "5")]
      "building:levels") = some 4 := by decide
  have h2 : truthyFloat (get_length [("building:levels", "4"), ("height", "5")]
      "height") = some 5 := by decide
  refine ⟨?_, ?_, by decide, by decide⟩
  · simp only [building_height, h1, h2]
    norm_num [BUILDING_MINIMAL_HEIGHT]
  · norm_num [BUILDING_MINIMAL_HEIGHT, LEVEL_HEIGHT]

/-- Claim C4 (amended): attribute derivation is last-assignment-wins, i.e.
first-match-wins in the *reverse* of the claimed order: the height is
`B + h` for a truthy explicit height length `h`, else `B + levels·L` for a
truthy level count, else `B` alone; the wall color is resolved as generic
`colour` tag → `building:colour` tag → material lookup table → default wall
color, each source applying only when its tag is truthy (and, for the
material, found in the table). -/
theorem c4_building_attribute_derivation :
    ∀ (scheme : Scheme) (tags : List (String × String)),
      building_height tags = building_height_spec tags
      ∧ building_wall_color scheme tags = building_wall_color_spec scheme tags := by
  intro scheme tags
  constructor
  · simp only [building_height, building_height_spec]
  · simp only [building_wall_color, building_wall_color_spec]

/-- The illumination color of the module-level `draw_walls`: construction
buildings get an unclamped per-channel shift of `segment.angle * 0.2`; low
walls get their luminance scaled; tall completed walls get a clamped
per-channel shift of `segment.angle * 0.2 - 0.1`. -/
def draw_walls_color (building : Building) (segment : Segment) (height : ℚ)
    (use_building_colors : Bool) : PyColor :=
  let color := if use_building_colors then building.wall_color
    else building.wall_default_color
  if building.is_construction then
    let color_part := segment.angle * 0.2
    ⟨color.red + color_part, color.green + color_part, color.blue + color_part⟩
  else if height ≤ 0.25 / BUILDING_SCALE then
    setLuminance color (getLuminance color * 0.70)
  else if height ≤ 0.5 / BUILDING_SCALE then
    setLuminance color (getLuminance color * 0.85)
  else
    let color_part := segment.angle * 0.2 - 0.1
    ⟨max (min (color.red + color_part) 1) 0,
      max (min (color.green + color_part) 1) 0,
      max (min (color.blue + color_part) 1) 0⟩

/-- Clamping to the unit interval really lands in it. -/
theorem clamp01_mem (x : ℚ) : 0 ≤ max (min x 1) 0 ∧ max (min x 1) 0 ≤ 1 :=
  ⟨le_max_right _ _, max_le (le_trans (min_le_right _ _) le_rfl) (by norm_num)⟩

/-- A gray construction building (wall color channels `0.5`). -/
def c6Building : Building :=
  ⟨true, true, ⟨0, 0, 0⟩, ⟨0, 0, 0⟩, ⟨0, 0, 0⟩, ⟨0, 0, 0⟩, ⟨0, 0, 0⟩,
    ⟨0.5, 0.5, 0.5⟩, [], 10, 0⟩

/-- The same building, completed rather than under construction. -/
def c6BuildingDone : Building :=
  ⟨false, true, ⟨0, 0, 0⟩, ⟨0, 0, 0⟩, ⟨0, 0, 0⟩, ⟨0, 0, 0⟩, ⟨0, 0, 0⟩,
    ⟨0.5, 0.5, 0.5⟩, [], 10, 0⟩

/-- A wall segment with `angle = 3.0`. -/
def c6Segment : Segment := ⟨(0, 0), (1, 1), 3⟩

/-- Claim C6: for a construction building every channel of the wall color is
shifted by `segment.angle * 0.2` with no clamping — in particular base
channel `0.5` with `angle = 3.0` yields the preserved out-of-range `1.1` —
while for a completed building whose wall height exceeds both darkening
thresholds every channel is shifted by `segment.angle * 0.2 - 0.1` and
clamped into `[0, 1]`. -/
theorem c6_wall_illumination :
    (∀ (b : Building) (s : Segment) (h : ℚ) (use : Bool),
      b.is_construction = true →
      draw_walls_color b s h use =
        ⟨(if use then b.wall_color else b.wall_default_color).red + s.angle * 0.2,
          (if use then b.wall_color else b.wall_default_color).green + s.angle * 0.2,
          (if use then b.wall_color else b.wall_default_color).blue + s.angle * 0.2⟩)
    ∧ (draw_walls_color c6Building c6Segment 1 true = ⟨1.1, 1.1, 1.1⟩ ∧ (1 : ℚ) < 1.1)
    ∧ (∀ (b : Building) (s : Segment) (h : ℚ) (use : Bool),
      b.is_construction = false → 0.5 / BUILDING_SCALE < h →
      draw_walls_color b s h use =
        ⟨max (min ((if use then b.wall_color else b.wall_default_color).red
            + (s.angle * 0.2 - 0.1)) 1) 0,
          max (min ((if use then b.wall_color else b.wall_default_color).green
            + (s.angle * 0.2 - 0.1)) 1) 0,
          max (min ((if use then b.wall_color else b.wall_default_color).blue
            + (s.angle * 0.2 - 0.1)) 1) 0⟩
      ∧ (0 ≤ (draw_walls_color b s h use).red ∧ (draw_walls_color b s h use).red ≤ 1)
      ∧ (0 ≤ (draw_walls_color b s h use).green ∧ (draw_walls_color b s h use).green ≤ 1)
      ∧ (0 ≤ (draw_walls_color b s h use).blue ∧ (draw_walls_color b s h use).blue ≤ 1)) := by
  have key : ∀ (b : Building) (s : Segment) (h : ℚ) (use : Bool),
      b.is_construction = false → 0.5 / BUILDING_SCALE < h →
      draw_walls_color b s h use =
        ⟨max (min ((if use then b.wall_color else b.wall_default_color).red
            + (s.angle * 0.2 - 0.1)) 1) 0,
          max (min ((if use then b.wall_color else b.wall_default_color).green
            + (s.angle * 0.2 - 0.1)) 1) 0,
          max (min ((if use then b.wall_color else b.wall_default_color).blue
            + (s.angle * 0.2 - 0.1)) 1) 0⟩ := by
    intro b s h use hcon hgt
    have h05 : ¬ h ≤ 0.5 / BUILDING_SCALE := not_le.mpr hgt
    have h025 : ¬ h ≤ 0.25 / BUILDING_SCALE := by
      refine not_le.mpr (lt_trans ?_ hgt)
      norm_num [BUILDING_SCALE]
    simp [draw_walls_color, hcon, h05, h025]
  refine ⟨?_, ⟨?_, by norm_num⟩, ?_⟩
  · intro b s h use hcon
    simp [draw_walls_color, hcon]
  · have hc : c6Building.is_construction = true := rfl
    have e := (fun (b : Building) (s : Segment) (h : ℚ) (use : Bool)
      (hcon : b.is_construction = true) => by
        simp [draw_walls_color, hcon] :
      ∀ (b : Building) (s : Segment) (h : ℚ) (use : Bool),
        b.is_construction = true →
        draw_walls_color b s h use =
          ⟨(if use then b.wall_color else b.wall_default_color).red + s.angle * 0.2,
            (if use then b.wall_color else b.wall_default_color).green + s.angle * 0.2,
            (if use then b.wall_color else b.wall_default_color).blue + s.angle * 0.2⟩)
    rw [e c6Building c6Segment 1 true hc]
    norm_num [c6Building, c6Segment]
  · intro b s h use hcon hgt
    refine ⟨key b s h use hcon hgt, ?_, ?_, ?_⟩
    · rw [key b s h use hcon hgt]
      exact clamp01_mem _
    · rw [key b s h use hcon hgt]
      exact clamp01_mem _
    · rw [key b s h use hcon hgt]
      exact clamp01_mem _

theorem c6_threshold_helper : (0.5 : ℚ) / BUILDING_SCALE < 2 := by
  norm_num [BUILDING_SCALE]

/-- Witness for C6: the construction branch at the gray building with
`angle = 3.0`, and the clamped branch at the completed building with wall
height `2`, which exceeds both thresholds. -/
theorem c6_wall_illumination_witness :
    draw_walls_color c6Building c6Segment 1 true =
      ⟨(if true then c6Building.wall_color else c6Building.wall_default_color).red
          + c6Segment.angle * 0.2,
        (if true then c6Building.wall_color else c6Building.wall_default_color).green
          + c6Segment.angle * 0.2,
        (if true then c6Building.wall_color else c6Building.wall_default_color).blue
          + c6Segment.angle * 0.2⟩
    ∧ (0 ≤ (draw_walls_color c6BuildingDone c6Segment 2 true).red
        ∧ (draw_walls_color c6BuildingDone c6Segment 2 true).red ≤ 1) :=
  ⟨c6_wall_illumination.1 c6Building c6Segment 1 true rfl,
    (c6_wall_illumination.2.2 c6BuildingDone c6Segment 2 true rfl c6_threshold_helper).2.1⟩

/-! ## `mapper.py`: isometric building compositing (`Map.draw_buildings`)
and the scene composer (`Map.draw`). -/

/-- Association-list lookup with decidable equality, modelling Python
`dict` indexing. -/
def alookup [DecidableEq κ] (k : κ) : List (κ × ν) → Option ν
  | [] => none
  | (k', v) :: rest => if k = k' then some v else alookup k rest

/-- A Python `dict` as an insertion-ordered association list: assignment
updates the value of an existing key in place and appends a new key at the
end. -/
def dictInsert [DecidableEq κ] (k : κ) (v : ν) : List (κ × ν) → List (κ × ν)
  | [] => [(k, v)]
  | (k', v') :: rest =>
      if k = k' then (k, v) :: rest else (k', v') :: dictInsert k v rest

/-- `walls: dict[Segment, Building]`, filled by iterating the buildings in
collection order and inserting every part (`walls[part] = building`). -/
def buildWalls (buildings : List Building) : List (Segment × Building) :=
  buildings.foldl
    (fun walls b => b.parts.foldl (fun w part => dictInsert part b w) walls) []

/-- One drawing call of the isometric building pass. -/
inductive BuildingEvent
  | shade (b : Building)
  | wall (seg : Segment) (b : Building) (height : ℚ)
  | roof (b : Building) (height : ℚ)
  deriving DecidableEq, Repr

/-- The body of the wall loop for one wall key: skip when the owning
building satisfies `height < band or min_height >= band`, else draw one
quad (the `none` case cannot occur for a key of the dict). -/
def bandWallStep (h : ℚ) (wall : Segment) : Option Building → List BuildingEvent
  | none => []
  | some building =>
      if building.height < h ∨ building.min_height ≥ h then []
      else [.wall wall building h]

/-- The wall loop of one height band over the sorted wall keys. -/
def bandWallEvents (walls : List (Segment × Building)) (sortedWalls : List Segment)
    (h : ℚ) : List BuildingEvent :=
  sortedWalls.flatMap (fun wall => bandWallStep h wall (alookup wall walls))

/-- The roof loop of one height band: when roofs are enabled, every building
whose own height equals the band top gets its roof drawn. -/
def bandRoofEvents (buildings : List Building) (draw_roofs : Bool) (h : ℚ) :
    List BuildingEvent :=
  if draw_roofs then
    buildings.flatMap (fun b => if b.height = h then [.roof b h] else [])
  else []

/-- The `for height in sorted(constructor.heights)` loop. -/
def bandLoop (walls : List (Segment × Building)) (sortedWalls : List Segment)
    (buildings : List Building) (draw_roofs : Bool) : List ℚ → List BuildingEvent
  | [] => []
  | h :: hs =>
      bandWallEvents walls sortedWalls h ++ bandRoofEvents buildings draw_roofs h
        ++ bandLoop walls sortedWalls buildings draw_roofs hs

/-- The isometric branch of `Map.draw_buildings`: one shade per building,
then the band loop over the ascending heights with the segment-to-building
dict and the sorted wall keys. -/
def draw_buildings_isometric (buildings : List Building) (heights : List ℚ)
    (draw_roofs : Bool) : List BuildingEvent :=
  let walls := buildWalls buildings
  let sortedWalls := List.insertionSort segR (walls.map Prod.fst)
  let sortedHeights := List.insertionSort (fun a b : ℚ => a ≤ b) heights
  buildings.map .shade ++ bandLoop walls sortedWalls buildings draw_roofs sortedHeights

/-- The building owning a segment per the claim: the *last* building in the
collection whose parts contain it. -/
def lastOwner (buildings : List Building) (s : Segment) : Option Building :=
  (buildings.filter (fun b => b.parts.contains s)).getLast?

theorem alookup_dictInsert (k : Segment) (v : Building) (l : List (Segment × Building))
    (s : Segment) :
    alookup s (dictInsert k v l) = if s = k then some v else alookup s l := by
  induction l with
  | nil => by_cases h : s = k <;> simp [dictInsert, alookup, h]
  | cons p rest ih =>
      obtain ⟨k', v'⟩ := p
      simp only [dictInsert]
      by_cases hk : k = k'
      · subst hk
        simp only [if_pos rfl]
        by_cases hs : s = k <;> simp [alookup, hs]
      · simp only [if_neg hk]
        by_cases hs : s = k'
        · have hsk : ¬ s = k := fun h => hk (h.symm.trans hs)
          have hkk : ¬ k' = k := fun h => hk h.symm
          simp [alookup, hs, hsk, hkk]
        · simp [alookup, hs, ih]

theorem alookup_insertParts (b : Building) (parts : List Segment)
    (acc : List (Segment × Building)) (s : Segment) :
    alookup s (parts.foldl (fun w part => dictInsert part b w) acc) =
      if s ∈ parts then some b else alookup s acc := by
  induction parts generalizing acc with
  | nil => simp
  | cons p ps ih =>
      rw [List.foldl_cons, ih, alookup_dictInsert]
      by_cases h1 : s ∈ ps
      · simp [h1]
      · by_cases h2 : s = p <;> simp [h1, h2]

theorem alookup_buildWalls_aux (bs : List Building) (s : Segment)
    (acc : List (Segment × Building)) :
    alookup s (bs.foldl
        (fun walls b => b.parts.foldl (fun w part => dictInsert part b w) walls) acc) =
      match lastOwner bs s with
      | some b => some b
      | none => alookup s acc := by
  induction bs generalizing acc with
  | nil => rfl
  | cons b rest ih =>
      rw [List.foldl_cons, ih, alookup_insertParts]
      by_cases hb : s ∈ b.parts
      · have hlast : lastOwner (b :: rest) s = some ((lastOwner rest s).getD b) := by
          rw [lastOwner, List.filter_cons, if_pos (by simpa using hb), List.getLast?_cons]
          rfl
        rw [hlast]
        cases hrest : lastOwner rest s with
        | none => simp [hb]
        | some x => simp
      · have hlast : lastOwner (b :: rest) s = lastOwner rest s := by
          rw [lastOwner, List.filter_cons, if_neg (by simpa using hb)]
          rfl
        rw [hlast]
        cases hrest : lastOwner rest s with
        | none => simp [hb]
        | some x => simp

theorem alookup_buildWalls (bs : List Building) (s : Segment) :
    alookup s (buildWalls bs) = lastOwner bs s := by
  rw [buildWalls, alookup_buildWalls_aux]
  cases lastOwner bs s <;> simp [alookup]

theorem mem_bandWallEvents (walls : List (Segment × Building)) (sw : List Segment)
    (h : ℚ) (e : BuildingEvent) :
    e ∈ bandWallEvents walls sw h ↔
      ∃ s b, e = .wall s b h ∧ s ∈ sw ∧ alookup s walls = some b
        ∧ ¬(b.height < h ∨ b.min_height ≥ h) := by
  simp only [bandWallEvents, List.mem_flatMap]
  constructor
  · rintro ⟨x, hx, hmem⟩
    cases hl : alookup x walls with
    | none => rw [hl] at hmem; simp [bandWallStep] at hmem
    | some bx =>
        rw [hl] at hmem
        by_cases hc : bx.height < h ∨ bx.min_height ≥ h
        · simp [bandWallStep, hc] at hmem
        · simp only [bandWallStep, if_neg hc, List.mem_singleton] at hmem
          exact ⟨x, bx, hmem, hx, hl, hc⟩
  · rintro ⟨s, b, rfl, hs, hl, hc⟩
    exact ⟨s, hs, by rw [hl]; simp [bandWallStep, hc]⟩

theorem count_bandWallEvents_zero (walls : List (Segment × Building)) (sw : List Segment)
    (h h' : ℚ) (s : Segment) (b : Building) (hns : s ∉ sw) :
    (bandWallEvents walls sw h).count (.wall s b h') = 0 := by
  rw [List.count_eq_zero]
  intro hmem
  rcases (mem_bandWallEvents walls sw h _).1 hmem with ⟨s', b', heq, hs', _, _⟩
  cases heq
  exact hns hs'

theorem count_bandWallStep_le_one (h : ℚ) (x : Segment) (o : Option Building)
    (e : BuildingEvent) : (bandWallStep h x o).count e ≤ 1 := by
  cases o with
  | none => simp [bandWallStep]
  | some bx =>
      by_cases hc : bx.height < h ∨ bx.min_height ≥ h
      · simp [bandWallStep, hc]
      · simp only [bandWallStep, if_neg hc]
        simp [List.count_cons]
        by_cases hbb : BuildingEvent.wall x bx h = e <;> simp [hbb]

theorem count_bandWallStep_zero_of_ne (h : ℚ) (x : Segment) (o : Option Building)
    (s : Segment) (b : Building) (h' : ℚ) (hxs : x ≠ s) :
    (bandWallStep h x o).count (.wall s b h') = 0 := by
  cases o with
  | none => simp [bandWallStep]
  | some bx =>
      by_cases hc : bx.height < h ∨ bx.min_height ≥ h
      · simp [bandWallStep, hc]
      · simp only [bandWallStep, if_neg hc]
        rw [List.count_eq_zero]
        intro hmem
        simp only [List.mem_singleton] at hmem
        cases hmem
        exact hxs rfl

theorem count_bandWallEvents_le_one (walls : List (Segment × Building)) (sw : List Segment)
    (h : ℚ) (s : Segment) (b : Building) (hnd : sw.Nodup) :
    (bandWallEvents walls sw h).count (.wall s b h) ≤ 1 := by
  induction sw with
  | nil => simp [bandWallEvents]
  | cons x sw' ih =>
      rw [List.nodup_cons] at hnd
      obtain ⟨hx, hnd'⟩ := hnd
      have hsplit : bandWallEvents walls (x :: sw') h =
          bandWallStep h x (alookup x walls) ++ bandWallEvents walls sw' h := by
        simp [bandWallEvents]
      rw [hsplit, List.count_append]
      by_cases hxs : x = s
      · subst hxs
        have hz : (bandWallEvents walls sw' h).count (.wall x b h) = 0 :=
          count_bandWallEvents_zero walls sw' h h x b hx
        rw [hz]
        simpa using count_bandWallStep_le_one h x (alookup x walls) (.wall x b h)
      · rw [count_bandWallStep_zero_of_ne h x (alookup x walls) s b h hxs]
        simpa using ih hnd'

theorem alookup_eq_none (walls : List (Segment × Building)) (s : Segment) :
    alookup s walls = none ↔ s ∉ walls.map Prod.fst := by
  induction walls with
  | nil => simp [alookup]
  | cons p rest ih =>
      obtain ⟨k, v⟩ := p
      by_cases hs : s = k <;> simp [alookup, hs, ih]

theorem mem_keys_dictInsert (k : Segment) (v : Building) (l : List (Segment × Building))
    (x : Segment) :
    x ∈ (dictInsert k v l).map Prod.fst ↔ x = k ∨ x ∈ l.map Prod.fst := by
  induction l with
  | nil => simp [dictInsert]
  | cons p rest ih =>
      obtain ⟨k', v'⟩ := p
      by_cases hk : k = k'
      · subst hk
        simp [dictInsert]
      · simp [dictInsert, hk, ih]
        tauto

theorem nodup_keys_dictInsert (k : Segment) (v : Building) (l : List (Segment × Building))
    (hnd : (l.map Prod.fst).Nodup) : ((dictInsert k v l).map Prod.fst).Nodup := by
  induction l with
  | nil => simp [dictInsert]
  | cons p rest ih =>
      obtain ⟨k', v'⟩ := p
      simp only [List.map_cons, List.nodup_cons] at hnd
      obtain ⟨hk', hrest⟩ := hnd
      by_cases hk : k = k'
      · subst hk
        simp [dictInsert, hk', hrest]
      · simp only [dictInsert, if_neg hk, List.map_cons, List.nodup_cons]
        refine ⟨?_, ih hrest⟩
        rw [mem_keys_dictInsert]
        rintro (h | h)
        · exact hk h.symm
        · exact hk' h

theorem nodup_keys_insertParts (b : Building) (parts : List Segment)
    (acc : List (Segment × Building)) (hnd : (acc.map Prod.fst).Nodup) :
    (((parts.foldl (fun w part => dictInsert part b w) acc)).map Prod.fst).Nodup := by
  induction parts generalizing acc with
  | nil => simpa using hnd
  | cons p ps ih => exact ih _ (nodup_keys_dictInsert p b acc hnd)

theorem nodup_keys_buildWalls (bs : List Building) :
    ((buildWalls bs).map Prod.fst).Nodup := by
  rw [buildWalls]
  have aux : ∀ (acc : List (Segment × Building)), (acc.map Prod.fst).Nodup →
      ((bs.foldl (fun walls b => b.parts.foldl (fun w part => dictInsert part b w) walls)
        acc).map Prod.fst).Nodup := by
    induction bs with
    | nil => intro acc h; simpa using h
    | cons b rest ih =>
        intro acc h
        exact ih _ (nodup_keys_insertParts b b.parts acc h)
  exact aux [] (by simp)

theorem mem_bandRoofEvents (bs : List Building) (dr : Bool) (h : ℚ) (e : BuildingEvent) :
    e ∈ bandRoofEvents bs dr h ↔ (dr = true ∧ ∃ b ∈ bs, b.height = h ∧ e = .roof b h) := by
  cases dr with
  | false => simp [bandRoofEvents]
  | true =>
      have hE : bandRoofEvents bs true h =
          bs.flatMap (fun b => if b.height = h then [BuildingEvent.roof b h] else []) := by
        simp [bandRoofEvents]
      rw [hE]
      simp only [List.mem_flatMap, true_and]
      constructor
      · rintro ⟨b, hb, hmem⟩
        by_cases hh : b.height = h
        · rw [if_pos hh] at hmem
          simp only [List.mem_singleton] at hmem
          exact ⟨b, hb, hh, hmem⟩
        · rw [if_neg hh] at hmem
          simp at hmem
      · rintro ⟨b, hb, hh, rfl⟩
        exact ⟨b, hb, by rw [if_pos hh]; simp⟩

/-- Roof-draw recognizer. -/
def isRoofEvt : BuildingEvent → Bool
  | .roof _ _ => true
  | _ => false

theorem filter_isRoof_map_wall (l : List Segment) (b : Building) (h : ℚ) :
    (l.map (fun x => BuildingEvent.wall x b h)).filter isRoofEvt = [] := by
  induction l with
  | nil => rfl
  | cons x tl ih => simp [List.filter_cons, isRoofEvt, ih]

/-- Claim C2: in a band, a wall quad is emitted for segment `s` with owner
`b` iff `s` is among the sorted keys owned by `b` and `b.height ≥ band ∧
b.min_height < band`; and in the concrete scenario — heights `[0, 5, 10]`,
roofs enabled, a building with `min_height = 0`, `height = 10`, walls on —
the building's wall quads appear exactly in the bands topping at `5` and
`10`, and its roof is drawn exactly once, in the band topping at `10`. -/
theorem c2_band_compositing :
    (∀ (walls : List (Segment × Building)) (sortedWalls : List Segment) (h h' : ℚ)
        (s : Segment) (b : Building),
      BuildingEvent.wall s b h' ∈ bandWallEvents walls sortedWalls h ↔
        (h' = h ∧ s ∈ sortedWalls ∧ alookup s walls = some b
          ∧ b.height ≥ h ∧ b.min_height < h))
    ∧ (∀ b : Building, b.min_height = 0 → b.height = 10 → b.has_walls = true →
      (∀ (s : Segment) (h : ℚ),
        BuildingEvent.wall s b h ∈ draw_buildings_isometric [b] [0, 5, 10] true ↔
          (s ∈ b.parts ∧ (h = 5 ∨ h = 10)))
      ∧ (draw_buildings_isometric [b] [0, 5, 10] true).filter isRoofEvt
          = [BuildingEvent.roof b 10]) := by
  constructor
  · intro walls sortedWalls h h' s b
    rw [mem_bandWallEvents]
    constructor
    · rintro ⟨s', b', heq, hs', hl', hc'⟩
      simp only [BuildingEvent.wall.injEq] at heq
      obtain ⟨rfl, rfl, rfl⟩ := heq
      push_neg at hc'
      exact ⟨rfl, hs', hl', hc'.1, hc'.2⟩
    · rintro ⟨rfl, hs, hl, hh, hm⟩
      refine ⟨s, b, rfl, hs, hl, ?_⟩
      push_neg
      exact ⟨hh, hm⟩
  · intro b h1 h2 h3
    have hlk : ∀ s : Segment, alookup s (buildWalls [b]) =
        if s ∈ b.parts then some b else none := by
      intro s
      rw [buildWalls]
      simp only [List.foldl_cons, List.foldl_nil]
      rw [alookup_insertParts]
      by_cases hs : s ∈ b.parts <;> simp [hs, alookup]
    have hkeys : ∀ s : Segment,
        (s ∈ List.insertionSort segR ((buildWalls [b]).map Prod.fst)) ↔ s ∈ b.parts := by
      intro s
      rw [(List.perm_insertionSort segR _).mem_iff]
      constructor
      · intro hs
        by_contra hsp
        have h0 : alookup s (buildWalls [b]) = none := by rw [hlk s, if_neg hsp]
        exact (alookup_eq_none _ s).1 h0 hs
      · intro hsp
        by_contra hs
        have h0 : alookup s (buildWalls [b]) = none := (alookup_eq_none _ s).2 hs
        rw [hlk s, if_pos hsp] at h0
        exact Option.noConfusion h0
    have hband : ∀ (h : ℚ) (sw : List Segment), (∀ x ∈ sw, x ∈ b.parts) →
        bandWallEvents (buildWalls [b]) sw h =
          if b.height < h ∨ b.min_height ≥ h then []
          else sw.map (fun x => BuildingEvent.wall x b h) := by
      intro h sw
      induction sw with
      | nil =>
          intro _
          by_cases hc : b.height < h ∨ b.min_height ≥ h <;> simp [bandWallEvents, hc]
      | cons x tl ih =>
          intro hsw
          have hx : x ∈ b.parts := hsw x (List.mem_cons_self x tl)
          have htl := ih (fun y hy => hsw y (List.mem_cons_of_mem x hy))
          have hsplit : bandWallEvents (buildWalls [b]) (x :: tl) h =
              bandWallStep h x (alookup x (buildWalls [b]))
                ++ bandWallEvents (buildWalls [b]) tl h := by
            simp [bandWallEvents]
          rw [hsplit, htl, hlk x, if_pos hx]
          by_cases hc : b.height < h ∨ b.min_height ≥ h
          · simp [bandWallStep, hc]
          · simp [bandWallStep, hc]
    have hsw_mem : ∀ x ∈ List.insertionSort segR ((buildWalls [b]).map Prod.fst),
        x ∈ b.parts := fun x hx => (hkeys x).1 hx
    have hsort : List.insertionSort (fun a b : ℚ => a ≤ b) ([0, 5, 10] : List ℚ)
        = [0, 5, 10] := by decide
    have hroof : ∀ h : ℚ, bandRoofEvents [b] true h =
        if b.height = h then [BuildingEvent.roof b h] else [] := by
      intro h; simp [bandRoofEvents]
    have htrace : draw_buildings_isometric [b] [0, 5, 10] true =
        BuildingEvent.shade b ::
          ((List.insertionSort segR ((buildWalls [b]).map Prod.fst)).map
              (fun x => BuildingEvent.wall x b 5) ++
            ((List.insertionSort segR ((buildWalls [b]).map Prod.fst)).map
              (fun x => BuildingEvent.wall x b 10) ++ [BuildingEvent.roof b 10])) := by
      simp only [draw_buildings_isometric]
      rw [hsort]
      simp only [bandLoop]
      rw [hband 0 _ hsw_mem, hband 5 _ hsw_mem, hband 10 _ hsw_mem,
        hroof 0, hroof 5, hroof 10, h1, h2]
      norm_num
    constructor
    · intro s h
      rw [htrace]
      simp only [List.mem_cons, List.mem_append, List.mem_map, List.mem_singleton]
      constructor
      · rintro (heq | ⟨x, hx, heq⟩ | ⟨x, hx, heq⟩ | heq)
        · exact absurd heq (by simp)
        · simp only [BuildingEvent.wall.injEq] at heq
          obtain ⟨rfl, -, rfl⟩ := heq
          exact ⟨(hkeys x).1 hx, Or.inl rfl⟩
        · simp only [BuildingEvent.wall.injEq] at heq
          obtain ⟨rfl, -, rfl⟩ := heq
          exact ⟨(hkeys x).1 hx, Or.inr rfl⟩
        · exact absurd heq (by simp)
      · rintro ⟨hs, (rfl | rfl)⟩
        · exact Or.inr (Or.inl ⟨s, (hkeys s).2 hs, rfl⟩)
        · exact Or.inr (Or.inr (Or.inl ⟨s, (hkeys s).2 hs, rfl⟩))
    · rw [htrace]
      simp only [List.filter_cons, List.filter_append]
      rw [filter_isRoof_map_wall, filter_isRoof_map_wall]
      simp [isRoofEvt]

/-- A one-segment building for the C2 witness. -/
def c2Segment : Segment := ⟨(0, 0), (1, 0), 1⟩

/-- `min_height = 0`, `height = 10`, has walls. -/
def c2Building : Building :=
  ⟨false, true, ⟨0, 0, 0⟩, ⟨0, 0, 0⟩, ⟨0, 0, 0⟩, ⟨0, 0, 0⟩, ⟨0, 0, 0⟩, ⟨0, 0, 0⟩,
    [c2Segment], 10, 0⟩

/-- Witness for C2: the scenario applied to the concrete one-segment
building — its roof is drawn exactly once, at the band topping at 10. -/
theorem c2_band_compositing_witness :
    (draw_buildings_isometric [c2Building] [0, 5, 10] true).filter isRoofEvt
      = [BuildingEvent.roof c2Building 10] :=
  (c2_band_compositing.2 c2Building rfl rfl rfl).2

/-- Claim C10: the `Segment → Building` dict is built by inserting every
building's wall segments in collection order, so a segment shared by two
buildings is owned by the one that occurs later in the collection
(`lastOwner`); the dict's keys are distinct, within a band a given wall
quad is drawn at most once, and every wall quad drawn uses the owning
building recorded in the dict. -/
theorem c10_segment_ownership :
    (∀ (buildings : List Building) (s : Segment),
      alookup s (buildWalls buildings) = lastOwner buildings s)
    ∧ (∀ buildings : List Building, ((buildWalls buildings).map Prod.fst).Nodup)
    ∧ (∀ (walls : List (Segment × Building)) (sw : List Segment) (h : ℚ)
        (s : Segment) (b : Building), sw.Nodup →
      (bandWallEvents walls sw h).count (.wall s b h) ≤ 1)
    ∧ (∀ (walls : List (Segment × Building)) (sw : List Segment) (h h' : ℚ)
        (s : Segment) (b : Building),
      BuildingEvent.wall s b h' ∈ bandWallEvents walls sw h →
      alookup s walls = some b) := by
  refine ⟨alookup_buildWalls, nodup_keys_buildWalls,
    fun walls sw h s b hnd => count_bandWallEvents_le_one walls sw h s b hnd, ?_⟩
  intro walls sw h h' s b hmem
  rcases (mem_bandWallEvents walls sw h _).1 hmem with ⟨s', b', heq, _, hl', _⟩
  simp only [BuildingEvent.wall.injEq] at heq
  obtain ⟨rfl, rfl, rfl⟩ := heq
  exact hl'

/-- Witness for C10: the at-most-once bound applied to a nodup singleton
key list, and the ownership of a concretely drawn wall quad. -/
theorem c10_segment_ownership_witness :
    (bandWallEvents [(c2Segment, c2Building)] [c2Segment] 5).count
        (.wall c2Segment c2Building 5) ≤ 1
    ∧ alookup c2Segment [(c2Segment, c2Building)] = some c2Building :=
  ⟨c10_segment_ownership.2.2.1 [(c2Segment, c2Building)] [c2Segment] 5 c2Segment c2Building
      (by decide),
    c10_segment_ownership.2.2.2 [(c2Segment, c2Building)] [c2Segment] 5 5 c2Segment c2Building
      (by decide)⟩

/-! ## `map_configuration.py` and `Map.draw`: the scene composer. -/

/-- `DrawingMode` of `map_configuration.py`. -/
inductive DrawingMode
  | normal | author | time | white | black
  deriving DecidableEq, Repr

/-- `LabelMode` of `map_configuration.py`. -/
inductive LabelMode
  | no | main | all | address
  deriving DecidableEq, Repr

/-- `BuildingMode` of `map_configuration.py`. -/
inductive BuildingMode
  | no | flat | isometric | isometricNoParts
  deriving DecidableEq, Repr

/-- The configuration fields consumed by `Map.draw`/`Map.draw_buildings`. -/
structure MapConfiguration where
  drawing_mode : DrawingMode
  building_mode : BuildingMode
  label_mode : LabelMode
  draw_roofs : Bool
  use_building_colors : Bool
  show_credit : Bool
  deriving DecidableEq, Repr

/-- `MapConfiguration.is_wireframe()`: the drawing mode is special. -/
def is_wireframe (c : MapConfiguration) : Bool :=
  decide (c.drawing_mode ≠ DrawingMode.normal)

/-- Modelled from the spec: the scheme's category toggles consumed by
`Map.draw` (the defining `scheme.py` is absent from the provided sources;
the toggles' use is visible in `mapper.py`). -/
structure SchemeToggles where
  draw_trees : Bool
  draw_craters : Bool
  draw_buildings : Bool
  draw_directions : Bool
  draw_nodes : Bool
  deriving DecidableEq, Repr

/-- A point object to be drawn in the three icon/text passes; only its
priority matters to `Map.draw`. -/
structure ScenePoint where
  pid : ℕ
  priority : ℚ
  deriving DecidableEq, Repr

/-- The sort relation of `sorted(constructor.points, key=lambda x: -x.priority)`. -/
def pointR (a b : ScenePoint) : Prop := -a.priority ≤ -b.priority

instance : DecidableRel pointR := fun a b =>
  inferInstanceAs (Decidable (-a.priority ≤ -b.priority))

instance : IsTotal ScenePoint pointR := ⟨fun a b => le_total _ _⟩

instance : IsTrans ScenePoint pointR := ⟨fun _ _ _ h1 h2 => le_trans h1 h2⟩

/-- The collections handed to `Map.draw` by the external `Constructor`. -/
structure Constructor where
  figures : List StyledFigure
  trees : List ℕ
  craters : List ℕ
  buildings : List Building
  heights : List ℚ
  direction_sectors : List ℕ
  points : List ScenePoint

/-- One SVG element appended by `Map.draw`. -/
inductive SceneEvent
  | background
  | figurePath (f : StyledFigure)
  | roads
  | tree (t : ℕ)
  | crater (c : ℕ)
  | buildingFlat (b : Building)
  | buildingIso (e : BuildingEvent)
  | direction (d : ℕ)
  | mainShape (p : ScenePoint)
  | extraShape (p : ScenePoint)
  | textLabel (p : ScenePoint)
  | credit
  deriving DecidableEq, Repr

/-- `ROAD_PRIORITY`. -/
def ROAD_PRIORITY : ℚ := 40

/-- Whether `figure.get_path(flinger)` is truthy: the path string
concatenates one nonempty chunk per ring, so it is empty iff the figure has
no rings (the ring-to-path conversion of the absent geometry module always
yields nonempty text per ring). -/
def figureHasPath (f : StyledFigure) : Bool :=
  !f.outers.isEmpty || !f.inners.isEmpty

/-- One figure loop of `Map.draw`: draw each figure whose path commands are
nonempty, in list order. -/
def figureEvents (figures : List StyledFigure) : List SceneEvent :=
  figures.flatMap (fun f => if figureHasPath f then [.figurePath f] else [])

/-- `Map.draw_buildings`: nothing, flat shapes, or the isometric pass,
according to the building mode. -/
def draw_buildings_events (cfg : MapConfiguration) (c : Constructor) : List SceneEvent :=
  match cfg.building_mode with
  | .no => []
  | .flat => c.buildings.map .buildingFlat
  | _ => (draw_buildings_isometric c.buildings c.heights cfg.draw_roofs).map .buildingIso

/-- The per-point guard of the text pass:
`not wireframe and label_mode != NO`. -/
def textsEnabled (cfg : MapConfiguration) : Bool :=
  !is_wireframe cfg && decide (cfg.label_mode ≠ LabelMode.no)

/-- `sorted(constructor.points, key=lambda x: -x.priority)` — a stable sort
by descending priority. -/
def sortedNodes (c : Constructor) : List ScenePoint :=
  List.insertionSort pointR c.points

/-- `Map.draw`: the fixed pass sequence, as the list of appended SVG
elements. -/
def map_draw (cfg : MapConfiguration) (scheme : SchemeToggles) (c : Constructor) :
    List SceneEvent :=
  [SceneEvent.background]
    ++ figureEvents (c.figures.filter (fun f => decide (f.line_style.priority < ROAD_PRIORITY)))
    ++ [SceneEvent.roads]
    ++ figureEvents (c.figures.filter (fun f => decide (f.line_style.priority ≥ ROAD_PRIORITY)))
    ++ (if scheme.draw_trees then c.trees.map SceneEvent.tree else [])
    ++ (if scheme.draw_craters then c.craters.map SceneEvent.crater else [])
    ++ (if scheme.draw_buildings then draw_buildings_events cfg c else [])
    ++ (if scheme.draw_directions then c.direction_sectors.map SceneEvent.direction else [])
    ++ (if scheme.draw_nodes then
          (sortedNodes c).map SceneEvent.mainShape
            ++ (sortedNodes c).map SceneEvent.extraShape
            ++ (sortedNodes c).flatMap
                (fun p => if textsEnabled cfg then [SceneEvent.textLabel p] else [])
        else [])
    ++ (if cfg.show_credit then [SceneEvent.credit] else [])

/-- Projection of tree events. -/
def treeProj : SceneEvent → Option ℕ
  | .tree t => some t
  | _ => none

/-- Projection of crater events. -/
def craterProj : SceneEvent → Option ℕ
  | .crater c => some c
  | _ => none

/-- Projection of direction-sector events. -/
def directionProj : SceneEvent → Option ℕ
  | .direction d => some d
  | _ => none

/-- Projection of main-shape events. -/
def mainShapeProj : SceneEvent → Option ScenePoint
  | .mainShape p => some p
  | _ => none

/-- Projection of extra-shape events. -/
def extraShapeProj : SceneEvent → Option ScenePoint
  | .extraShape p => some p
  | _ => none

/-- Projection of text-label events. -/
def textLabelProj : SceneEvent → Option ScenePoint
  | .textLabel p => some p
  | _ => none

/-- Projection of building events (flat or isometric). -/
def buildingProj : SceneEvent → Option SceneEvent
  | .buildingFlat b => some (.buildingFlat b)
  | .buildingIso e => some (.buildingIso e)
  | _ => none

/-- Projection of the credit overlay. -/
def creditProj : SceneEvent → Option SceneEvent
  | .credit => some .credit
  | _ => none

theorem mem_figureEvents {e : SceneEvent} {l : List StyledFigure}
    (he : e ∈ figureEvents l) : ∃ f, e = .figurePath f := by
  simp only [figureEvents, List.mem_flatMap] at he
  rcases he with ⟨f, _, hmem⟩
  by_cases hp : figureHasPath f
  · rw [if_pos hp] at hmem
    simp only [List.mem_singleton] at hmem
    exact ⟨f, hmem⟩
  · rw [if_neg hp] at hmem
    simp at hmem

theorem filterMap_figureEvents {β : Type} (g : SceneEvent → Option β)
    (h : ∀ f, g (.figurePath f) = none) (l : List StyledFigure) :
    (figureEvents l).filterMap g = [] := by
  apply List.filterMap_eq_nil.mpr
  intro e he
  rcases mem_figureEvents he with ⟨f, rfl⟩
  exact h f

theorem filterMap_map_comp {α β : Type} (f : α → SceneEvent) (g : SceneEvent → Option β)
    (k : α → β) (h : ∀ a, g (f a) = some (k a)) (l : List α) :
    (l.map f).filterMap g = l.map k := by
  rw [List.filterMap_map]
  induction l with
  | nil => rfl
  | cons a tl ih => simp only [List.filterMap_cons, Function.comp_apply, h, List.map_cons, ih]

theorem filterMap_map_nil {α β : Type} (f : α → SceneEvent) (g : SceneEvent → Option β)
    (h : ∀ a, g (f a) = none) (l : List α) :
    (l.map f).filterMap g = [] := by
  rw [List.filterMap_map]
  exact List.filterMap_eq_nil.mpr (fun a _ => h a)

theorem filterMap_buildings_nil {β : Type} (g : SceneEvent → Option β)
    (h1 : ∀ b, g (.buildingFlat b) = none) (h2 : ∀ be, g (.buildingIso be) = none)
    (cfg : MapConfiguration) (c : Constructor) :
    (draw_buildings_events cfg c).filterMap g = [] := by
  cases hbm : cfg.building_mode with
  | no => simp [draw_buildings_events, hbm]
  | flat =>
      simp only [draw_buildings_events, hbm]
      exact filterMap_map_nil _ g h1 _
  | isometric =>
      simp only [draw_buildings_events, hbm]
      exact filterMap_map_nil _ g h2 _
  | isometricNoParts =>
      simp only [draw_buildings_events, hbm]
      exact filterMap_map_nil _ g h2 _

theorem filterMap_buildings_self (cfg : MapConfiguration) (c : Constructor) :
    (draw_buildings_events cfg c).filterMap buildingProj = draw_buildings_events cfg c := by
  cases hbm : cfg.building_mode with
  | no => simp [draw_buildings_events, hbm]
  | flat =>
      simp only [draw_buildings_events, hbm]
      exact filterMap_map_comp SceneEvent.buildingFlat buildingProj
        SceneEvent.buildingFlat (fun b => rfl) c.buildings
  | isometric =>
      simp only [draw_buildings_events, hbm]
      exact filterMap_map_comp SceneEvent.buildingIso buildingProj
        SceneEvent.buildingIso (fun be => rfl) _
  | isometricNoParts =>
      simp only [draw_buildings_events, hbm]
      exact filterMap_map_comp SceneEvent.buildingIso buildingProj
        SceneEvent.buildingIso (fun be => rfl) _

theorem filterMap_textPass_nil {β : Type} (g : SceneEvent → Option β)
    (h : ∀ p, g (.textLabel p) = none) (cond : Bool) (l : List ScenePoint) :
    (l.flatMap (fun p => if cond then [SceneEvent.textLabel p] else [])).filterMap g = [] := by
  apply List.filterMap_eq_nil.mpr
  intro e he
  simp only [List.mem_flatMap] at he
  rcases he with ⟨p, _, hmem⟩
  cases cond with
  | false => simp at hmem
  | true =>
      simp at hmem
      subst hmem
      exact h p

theorem filterMap_textPass_self (cond : Bool) (l : List ScenePoint) :
    (l.flatMap (fun p => if cond then [SceneEvent.textLabel p] else [])).filterMap textLabelProj
      = if cond then l else [] := by
  cases cond with
  | false =>
      simp only [Bool.false_eq_true, if_false]
      induction l with
      | nil => rfl
      | cons p tl ih => simpa using ih
  | true =>
      simp only [if_pos rfl]
      induction l with
      | nil => rfl
      | cons p tl ih =>
          simp only [List.flatMap_cons, List.filterMap_append, ih]
          simp [textLabelProj, List.filterMap_cons]

/-- Claim C9: `Map.draw` emits its passes in the fixed order — background,
styled figures below the road threshold in stable-sorted order, roads,
figures at or above the threshold, trees, craters, buildings per
configuration, direction sectors, three full passes (main shapes, extra
shapes, texts) over the same point list sorted once by descending priority,
and the credit overlay last — and each disabled toggle skips its entire
pass: the category's events in the trace are exactly its pass when enabled
and empty when disabled. -/
theorem c9_draw_order :
    ∀ (cfg : MapConfiguration) (scheme : SchemeToggles) (c : Constructor),
      map_draw cfg scheme c =
        [SceneEvent.background]
          ++ figureEvents (c.figures.filter
              (fun f => decide (f.line_style.priority < ROAD_PRIORITY)))
          ++ [SceneEvent.roads]
          ++ figureEvents (c.figures.filter
              (fun f => decide (f.line_style.priority ≥ ROAD_PRIORITY)))
          ++ (if scheme.draw_trees then c.trees.map SceneEvent.tree else [])
          ++ (if scheme.draw_craters then c.craters.map SceneEvent.crater else [])
          ++ (if scheme.draw_buildings then draw_buildings_events cfg c else [])
          ++ (if scheme.draw_directions then
                c.direction_sectors.map SceneEvent.direction else [])
          ++ (if scheme.draw_nodes then
                (sortedNodes c).map SceneEvent.mainShape
                  ++ (sortedNodes c).map SceneEvent.extraShape
                  ++ (sortedNodes c).flatMap
                      (fun p => if textsEnabled cfg then [SceneEvent.textLabel p] else [])
              else [])
          ++ (if cfg.show_credit then [SceneEvent.credit] else [])
      ∧ (map_draw cfg scheme c).filterMap treeProj
          = (if scheme.draw_trees then c.trees else [])
      ∧ (map_draw cfg scheme c).filterMap craterProj
          = (if scheme.draw_craters then c.craters else [])
      ∧ (map_draw cfg scheme c).filterMap buildingProj
          = (if scheme.draw_buildings then draw_buildings_events cfg c else [])
      ∧ (map_draw cfg scheme c).filterMap directionProj
          = (if scheme.draw_directions then c.direction_sectors else [])
      ∧ (map_draw cfg scheme c).filterMap mainShapeProj
          = (if scheme.draw_nodes then sortedNodes c else [])
      ∧ (map_draw cfg scheme c).filterMap extraShapeProj
          = (if scheme.draw_nodes then sortedNodes c else [])
      ∧ (map_draw cfg scheme c).filterMap textLabelProj
          = (if scheme.draw_nodes && textsEnabled cfg then sortedNodes c else [])
      ∧ (map_draw cfg scheme c).filterMap creditProj
          = (if cfg.show_credit then [SceneEvent.credit] else [])
      ∧ (sortedNodes c).Pairwise (fun a b => b.priority ≤ a.priority)
      ∧ (sortedNodes c).Perm c.points := by
  intro cfg scheme c
  refine ⟨rfl, ?_, ?_, ?_, ?_, ?_, ?_, ?_, ?_, ?_, ?_⟩
  · simp only [map_draw, List.filterMap_append, apply_ite (List.filterMap treeProj),
      filterMap_figureEvents treeProj (fun f => rfl),
      filterMap_map_nil SceneEvent.crater treeProj (fun a => rfl),
      filterMap_buildings_nil treeProj (fun b => rfl) (fun be => rfl),
      filterMap_map_nil SceneEvent.direction treeProj (fun a => rfl),
      filterMap_map_nil SceneEvent.mainShape treeProj (fun a => rfl),
      filterMap_map_nil SceneEvent.extraShape treeProj (fun a => rfl),
      filterMap_textPass_nil treeProj (fun p => rfl),
      filterMap_map_comp SceneEvent.tree treeProj (fun t => t) (fun t => rfl)]
    simp [treeProj, ite_self]
  · simp only [map_draw, List.filterMap_append, apply_ite (List.filterMap craterProj),
      filterMap_figureEvents craterProj (fun f => rfl),
      filterMap_map_nil SceneEvent.tree craterProj (fun a => rfl),
      filterMap_buildings_nil craterProj (fun b => rfl) (fun be => rfl),
      filterMap_map_nil SceneEvent.direction craterProj (fun a => rfl),
      filterMap_map_nil SceneEvent.mainShape craterProj (fun a => rfl),
      filterMap_map_nil SceneEvent.extraShape craterProj (fun a => rfl),
      filterMap_textPass_nil craterProj (fun p => rfl),
      filterMap_map_comp SceneEvent.crater craterProj (fun a => a) (fun a => rfl)]
    simp [craterProj, ite_self]
  · simp only [map_draw, List.filterMap_append, apply_ite (List.filterMap buildingProj),
      filterMap_figureEvents buildingProj (fun f => rfl),
      filterMap_map_nil SceneEvent.tree buildingProj (fun a => rfl),
      filterMap_map_nil SceneEvent.crater buildingProj (fun a => rfl),
      filterMap_buildings_self cfg c,
      filterMap_map_nil SceneEvent.direction buildingProj (fun a => rfl),
      filterMap_map_nil SceneEvent.mainShape buildingProj (fun a => rfl),
      filterMap_map_nil SceneEvent.extraShape buildingProj (fun a => rfl),
      filterMap_textPass_nil buildingProj (fun p => rfl)]
    simp [buildingProj, ite_self]
  · simp only [map_draw, List.filterMap_append, apply_ite (List.filterMap directionProj),
      filterMap_figureEvents directionProj (fun f => rfl),
      filterMap_map_nil SceneEvent.tree directionProj (fun a => rfl),
      filterMap_map_nil SceneEvent.crater directionProj (fun a => rfl),
      filterMap_buildings_nil directionProj (fun b => rfl) (fun be => rfl),
      filterMap_map_nil SceneEvent.mainShape directionProj (fun a => rfl),
      filterMap_map_nil SceneEvent.extraShape directionProj (fun a => rfl),
      filterMap_textPass_nil directionProj (fun p => rfl),
      filterMap_map_comp SceneEvent.direction directionProj (fun a => a) (fun a => rfl)]
    simp [directionProj, ite_self]
  · simp only [map_draw, List.filterMap_append, apply_ite (List.filterMap mainShapeProj),
      filterMap_figureEvents mainShapeProj (fun f => rfl),
      filterMap_map_nil SceneEvent.tree mainShapeProj (fun a => rfl),
      filterMap_map_nil SceneEvent.crater mainShapeProj (fun a => rfl),
      filterMap_buildings_nil mainShapeProj (fun b => rfl) (fun be => rfl),
      filterMap_map_nil SceneEvent.direction mainShapeProj (fun a => rfl),
      filterMap_map_nil SceneEvent.extraShape mainShapeProj (fun a => rfl),
      filterMap_textPass_nil mainShapeProj (fun p => rfl),
      filterMap_map_comp SceneEvent.mainShape mainShapeProj (fun a => a) (fun a => rfl)]
    simp [mainShapeProj, ite_self]
  · simp only [map_draw, List.filterMap_append, apply_ite (List.filterMap extraShapeProj),
      filterMap_figureEvents extraShapeProj (fun f => rfl),
      filterMap_map_nil SceneEvent.tree extraShapeProj (fun a => rfl),
      filterMap_map_nil SceneEvent.crater extraShapeProj (fun a => rfl),
      filterMap_buildings_nil extraShapeProj (fun b => rfl) (fun be => rfl),
      filterMap_map_nil SceneEvent.direction extraShapeProj (fun a => rfl),
      filterMap_map_nil SceneEvent.mainShape extraShapeProj (fun a => rfl),
      filterMap_textPass_nil extraShapeProj (fun p => rfl),
      filterMap_map_comp SceneEvent.extraShape extraShapeProj (fun a => a) (fun a => rfl)]
    simp [extraShapeProj, ite_self]
  · simp only [map_draw, List.filterMap_append, apply_ite (List.filterMap textLabelProj),
      filterMap_figureEvents textLabelProj (fun f => rfl),
      filterMap_map_nil SceneEvent.tree textLabelProj (fun a => rfl),
      filterMap_map_nil SceneEvent.crater textLabelProj (fun a => rfl),
      filterMap_buildings_nil textLabelProj (fun b => rfl) (fun be => rfl),
      filterMap_map_nil SceneEvent.direction textLabelProj (fun a => rfl),
      filterMap_map_nil SceneEvent.mainShape textLabelProj (fun a => rfl),
      filterMap_map_nil SceneEvent.extraShape textLabelProj (fun a => rfl),
      filterMap_textPass_self (textsEnabled cfg) (sortedNodes c)]
    cases scheme.draw_nodes <;> cases htE : textsEnabled cfg <;>
      simp [textLabelProj, ite_self, htE]
  · simp only [map_draw, List.filterMap_append, apply_ite (List.filterMap creditProj),
      filterMap_figureEvents creditProj (fun f => rfl),
      filterMap_map_nil SceneEvent.tree creditProj (fun a => rfl),
      filterMap_map_nil SceneEvent.crater creditProj (fun a => rfl),
      filterMap_buildings_nil creditProj (fun b => rfl) (fun be => rfl),
      filterMap_map_nil SceneEvent.direction creditProj (fun a => rfl),
      filterMap_map_nil SceneEvent.mainShape creditProj (fun a => rfl),
      filterMap_map_nil SceneEvent.extraShape creditProj (fun a => rfl),
      filterMap_textPass_nil creditProj (fun p => rfl)]
    simp [creditProj, ite_self]
  · exact (List.sorted_insertionSort pointR c.points).imp
      (fun {a b} h => by simpa [pointR] using h)
  · exact List.perm_insertionSort pointR c.points
